import Mathlib

/-!
PPPBox real-time orchestrator: `PPPTask`

A shallow embedding of `src/lib/Ntrip/PPPTask.cpp`.

* C++ `double` values are embedded as rationals (`ℚ`): every comparison the
  claims depend on is made between values that are exact in both.
* `CommonTime`, the stores, the processing objects and the solvers are declared
  outside the two source files; what the orchestrator needs from them is taken
  as a parameter (`Collab`) or modelled next to the place where it is used.
-/

set_option linter.dupNamespace false

namespace PPPBox

/-! ## Time stamps -/

/-- Modelled from the spec: the time-stamp class `CommonTime` is declared outside
the source files. A time stamp is a day count, the milliseconds of the day and
the remaining fraction of a second; the freshness of a correction is the
difference `epochTime - latestCorrectionTime` in seconds. -/
structure CommonTime where
  m_day : Int
  m_msod : Int
  m_fsod : ℚ
  deriving DecidableEq

namespace CommonTime

/-- The value of `CommonTime::getDays()`: the time stamp in days. -/
def getDays (t : CommonTime) : ℚ :=
  (t.m_day : ℚ) + (t.m_msod : ℚ) / 86400000 + t.m_fsod / 86400

/-- The value of `CommonTime::getSecondOfDay()`: the seconds since midnight. -/
def getSecondOfDay (t : CommonTime) : ℚ :=
  (t.m_msod : ℚ) / 1000 + t.m_fsod

/-- The value of `operator-`: the difference of two time stamps in seconds. -/
def sub (a b : CommonTime) : ℚ :=
  86400 * ((a.m_day - b.m_day : Int) : ℚ) + ((a.m_msod - b.m_msod : Int) : ℚ) / 1000
    + a.m_fsod - b.m_fsod

/-- The default-constructed time stamp. -/
def zero : CommonTime := ⟨0, 0, 0⟩

end CommonTime

/-! ## Observations and the task object -/

/-- One satellite observation `t_satObs`: the fields the orchestrator reads. -/
structure t_satObs where
  _staID : String
  _time : CommonTime
  deriving DecidableEq

/-- The station map `StaObsMap`, as the sequence of its entries in iteration
order: station key and the list of that station's observations. -/
abbrev StaObsMap := List (String × List t_satObs)

/-- The data members of `PPPTask` read by the functions embedded here. -/
structure PPPTask where
  m_bRealTime : Bool
  m_sPPPConfFile : String
  m_sCorrMount : String
  m_dCorrWaitTime : ℚ
  m_lastClkCorrTime : CommonTime
  m_sEopFileListName : String
  m_staObsMap : StaObsMap

namespace PPPTask

/-- The constructor `PPPTask::PPPTask()`: the four members it assigns; the other
members are default-constructed. -/
def PPPTask : PPPBox.PPPTask where
  m_bRealTime := true
  m_sPPPConfFile := "../table/ppprt.conf"
  m_sCorrMount := "IGS03"
  m_dCorrWaitTime := 5
  m_lastClkCorrTime := CommonTime.zero
  m_sEopFileListName := ""
  m_staObsMap := []

/-- The gate `PPPTask::waitForCorr`: `true` lets the epoch proceed. -/
def waitForCorr (self : PPPBox.PPPTask) (epoTime : CommonTime) : Bool :=
  if self.m_bRealTime = false ∨ self.m_sCorrMount = "" then
    false
  else if self.m_lastClkCorrTime.getDays = 0 ∨ self.m_lastClkCorrTime.getSecondOfDay = 0 then
    false
  else
    let dt : ℚ := CommonTime.sub epoTime self.m_lastClkCorrTime
    if 1 < dt ∧ dt < self.m_dCorrWaitTime then
      true
    else
      false

end PPPTask

/-! ## Values handled by the orchestrator -/

/-- A `Triple` of doubles. -/
structure Triple where
  x : ℚ
  y : ℚ
  z : ℚ
  deriving DecidableEq

/-- Component-wise sum, the `operator+` of `Triple`. -/
def Triple.add (a b : Triple) : Triple := ⟨a.x + b.x, a.y + b.y, a.z + b.z⟩

/-- A receiver `Position`, by its three coordinates. -/
abbrev Position := Triple

/-- Satellite identifiers, with the order that sorts a `SatIDSet`. -/
abbrev SatID := Nat

/-- The `TypeID` values the orchestrator names. -/
inductive TypeID where
  | P1 | P2 | L1 | L2 | Q1 | Q2 | PC
  | dLat | dLon | dH | dx | dy | dz | wetMap
  deriving DecidableEq, Repr

/-- A `typeValueMap`: the value stored for a type, if any. -/
abbrev typeValueMap := TypeID → Option ℚ

/-- The data structure `gnssRinex`: the epoch of its header and its body, one
entry per satellite. -/
structure gnssRinex where
  epoch : CommonTime
  body : List (SatID × typeValueMap)

/-- The value of `gnssRinex::numSats()`. -/
def gnssRinex.numSats (g : gnssRinex) : Int := g.body.length

/-- The satellite position, velocity and clock record `Xvt`: the members read. -/
structure Xvt where
  x : Triple
  clkbias : ℚ
  deriving DecidableEq

/-- Modelled from the spec: the ephemeris/correction store `RealTimeEphStore` is
declared outside the source files. It answers `positionAndClock(satelliteId,
time)` (`getXvt`, which has no answer for an unknown satellite) and carries the
switch set by `usingCorrection`. -/
structure RealTimeEphStore where
  getXvt : SatID → CommonTime → Option Xvt
  usingCorrection : Bool

/-- The time representation `YDSTime`: year, day of year, second of day. -/
structure YDSTime where
  year : Int
  doy : Int
  sod : ℚ
  deriving DecidableEq

/-- What `printSolution` reads from the solver passed as `SolverLMS`. -/
structure SolverLMS where
  getSolution : TypeID → ℚ
  getConverged : Bool

/-- What `printSolution` reads from the `ComputeDOP` object. -/
structure ComputeDOP where
  getGDOP : ℚ
  getPDOP : ℚ

/-- One printed field of a record of the results stream. -/
inductive Field where
  | int (v : Int)
  | real (v : ℚ)
  | flag (v : Bool)
  deriving DecidableEq

/-- The lines written to an output stream, each line the sequence of its fields. -/
abbrev ofstream := List (List Field)

/-- The method `PPPTask::printSolution`. `toYDS` is the conversion
`static_cast<YDSTime>(time)`; widths and precision only format a field. -/
def PPPTask.printSolution (toYDS : CommonTime → YDSTime) (outfile : ofstream)
    (solver : SolverLMS) (time : CommonTime) (cDOP : ComputeDOP) (useNEU : Bool)
    (numSats : Int) (dryTropo : ℚ) : ofstream :=
  let head : List Field :=
    [Field.int (toYDS time).year, Field.int (toYDS time).doy, Field.real (toYDS time).sod]
  let coords : List Field :=
    if useNEU then
      [Field.real (solver.getSolution TypeID.dLat), Field.real (solver.getSolution TypeID.dLon),
       Field.real (solver.getSolution TypeID.dH),
       Field.real (solver.getSolution TypeID.wetMap + 0.1 + dryTropo)]
    else
      [Field.real (solver.getSolution TypeID.dx), Field.real (solver.getSolution TypeID.dy),
       Field.real (solver.getSolution TypeID.dz),
       Field.real (solver.getSolution TypeID.wetMap + 0.1 + dryTropo)]
  let tail : List Field :=
    [Field.int numSats, Field.flag solver.getConverged, Field.real cDOP.getGDOP,
     Field.real cDOP.getPDOP]
  outfile ++ [head ++ coords ++ tail]

/-! ## Exceptions and the handlers of the station loop -/

/-- What a step can throw, as far as the handlers of `process` tell it apart:
a `DecimateEpoch`, an `SVNumException`, another `gpstk::Exception`, or an object
of any other type. -/
inductive Thrown where
  | DecimateEpoch
  | SVNumException
  | Exception
  | unknown
  deriving DecidableEq, Repr

/-- The four `catch` clauses that follow the `try` block, `ellipsis` being
`catch(...)`. -/
inductive CatchClause where
  | DecimateEpoch
  | SVNumException
  | Exception
  | ellipsis
  deriving DecidableEq, Repr

/-- Whether a clause accepts a thrown object: `DecimateEpoch` and
`SVNumException` derive from `Exception`; `catch(...)` accepts everything. -/
def CatchClause.catches : CatchClause → Thrown → Bool
  | .DecimateEpoch, .DecimateEpoch => true
  | .SVNumException, .SVNumException => true
  | .Exception, .DecimateEpoch => true
  | .Exception, .SVNumException => true
  | .Exception, .Exception => true
  | .ellipsis, _ => true
  | _, _ => false

/-- The clauses in the order they are written. -/
def catchClauses : List CatchClause :=
  [.DecimateEpoch, .SVNumException, .Exception, .ellipsis]

/-- The clause that handles a thrown object: the first one that accepts it. -/
def selectClause (e : Thrown) : Option CatchClause :=
  catchClauses.find? (fun c => c.catches e)

/-- How a statement sequence inside the station loop ends: it falls through to
the statements after it, or it executes `continue`. -/
inductive Jump where
  | fallThrough
  | continue_
  deriving DecidableEq, Repr

/-- The body of each `catch` clause: all four end in `continue`. -/
def CatchClause.body : CatchClause → Jump
  | .DecimateEpoch => .continue_
  | .SVNumException => .continue_
  | .Exception => .continue_
  | .ellipsis => .continue_

/-- The result of running statements that may throw: normal completion with the
state reached, an exception with the state at the throw, or undefined behaviour
(an invalid iterator or index was used). -/
inductive Res (σ : Type) where
  | ok (s : σ)
  | thrown (e : Thrown) (s : σ)
  | ub

/-- The exception a result ended with, if it ended with one. -/
def Res.fault {σ : Type} : Res σ → Option Thrown
  | .thrown e _ => some e
  | _ => none

/-- Sequencing: the next statements run only after normal completion. -/
def Res.andThen {σ : Type} (r : Res σ) (f : σ → Res σ) : Res σ :=
  match r with
  | .ok s => f s
  | .thrown e s => .thrown e s
  | .ub => .ub

/-! ## The processing objects and the three processing lists -/

/-- The processing objects that `process` declares and pushes to a list. -/
inductive ProcObj where
  | requireObs | pObsFilter | linear1 | markCSLI | markCSMW | markArc
  | basic | eclipsedSV | elevWeights | grDelay | svPcenter | corr | windup
  | computeTropo | linear2 | phaseAlignL1 | phaseAlignL2 | linear3 | pcFilter
  | linear4 | cDOP | pppPredictSolver | pppCorrectSolver
  deriving DecidableEq, Repr

/-- The values `process` reads from the configuration file. -/
structure Conf where
  filterCode : Bool
  cutOffElevation : ℚ
  useAntex : Bool
  filterPC : Bool
  USENEU : Bool
  decimationInterval : ℚ
  filterCycles : Int
  KinematicMode : Bool
  AccelerationSigma : ℚ
  precision : Int
  printModel : Bool

/-- The list `preprocessList` after all `push_back` calls. -/
def preprocessList (conf : Conf) : List ProcObj :=
  [.requireObs] ++ (if conf.filterCode then [.pObsFilter] else []) ++
    [.linear1, .markCSLI, .markCSMW, .markArc]

/-- The list `predictList` after all `push_back` calls. -/
def predictList : List ProcObj :=
  [.basic, .eclipsedSV, .pppPredictSolver]

/-- The list `correctList` after all `push_back` calls. -/
def correctList (conf : Conf) : List ProcObj :=
  [.basic, .elevWeights, .grDelay, .svPcenter, .corr, .windup, .computeTropo, .linear2,
    .phaseAlignL1, .phaseAlignL2, .linear3] ++ (if conf.filterPC then [.pcFilter] else []) ++
    [.linear4, .cDOP, .pppCorrectSolver]

/-- The three stages of the pipeline. -/
inductive Stage where
  | preprocess
  | predict
  | correct
  deriving DecidableEq, Repr

/-! ## State of `process` -/

/-- The locals of `process` that a processing object can reach: the data
structure `gRin`, the receiver position held by `pppEKF`, the parameters of the
tropospheric model `neillTM`, the extra biases of `corr`, and `internal`, the
remaining state of `pppEKF` and of every processing object (solvers, cycle-slip
detectors, arc marker, DOP values). There is one of each for the whole loop. -/
structure Objects (Ω : Type) where
  gRin : gnssRinex
  rxPosition : Position
  neillTM : Option (CommonTime × Position)
  extraBiases : Triple
  internal : Ω

/-- The two mutexes of `SIG_CENTER` that `process` uses. -/
inductive Mutex where
  | m_allObsMutex
  | m_gpsEphMutex
  deriving DecidableEq, Repr

/-- What `process` does, in the order it does it. -/
inductive Event where
  | lock (m : Mutex)
  | unlock (m : Mutex)
  | wait
  | snapshot
  | convert (station : String)
  | step (station : String) (stage : Stage) (obj : ProcObj)
  | bootstrap (station : String)
  | tides (station : String)
  | tropo (station : String)
  | dryDelay (station : String)
  | printModel (station : String)
  | printSolution (station : String)
  deriving DecidableEq, Repr

/-- The mutable locals of `process` while its loop runs, with the record of what
has been done so far. -/
structure Locals (Ω : Type) where
  ephStore : RealTimeEphStore
  objs : Objects Ω
  initialTime : CommonTime
  drytropo : ℚ
  firstTime : Bool
  outfile : ofstream
  done : List Event

/-- The collaborators declared outside the source files, as the orchestrator
uses them. `Process obj` is the `Process` method of a processing object, applied
by `gRin >> list`; it reads the snapshot `ephStore` and works on `Objects`.
`Compute` is `Bancroft::Compute`, giving its return code and the solution
vector; the tide models and `NeillTropModel::dry_zenith_delay` may throw. -/
structure Collab (Ω : Type) where
  isValid : String → Bool
  Process : ProcObj → RealTimeEphStore → Objects Ω → Res (Objects Ω)
  Compute : List (List ℚ) → Except Thrown (Int × List ℚ)
  getSolidTide : CommonTime → Position → Except Thrown Triple
  getOceanLoading : String → CommonTime → Except Thrown Triple
  getPoleTide : CommonTime → Position → Except Thrown Triple
  dry_zenith_delay : Option (CommonTime × Position) → Except Thrown ℚ
  pppCorrectSolver : Ω → SolverLMS
  cDOP : Ω → ComputeDOP
  toYDS : CommonTime → YDSTime

/-- What the producer threads have put in the shared structures at a wake-up:
the task members (station map, last correction time), the store
`SIG_CENTER->m_ephStore`, and `obsList2gnssRinex` for the stream header of the
moment. -/
structure Shared where
  task : PPPTask
  m_ephStore : RealTimeEphStore
  obsList2gnssRinex : List t_satObs → Except Thrown gnssRinex

/-! ## The station pipeline -/

/-- Record one more thing done. -/
def Locals.note {Ω : Type} (l : Locals Ω) (e : Event) : Locals Ω :=
  { l with done := l.done ++ [e] }

/-- The statement `gRin >> list`: the objects of the list process `gRin` one
after the other; an object that throws ends the statement. -/
def runList {Ω : Type} (c : Collab Ω) (station : String) (stage : Stage) :
    List ProcObj → Locals Ω → Res (Locals Ω)
  | [], l => .ok l
  | obj :: rest, l =>
    match c.Process obj l.ephStore l.objs with
    | .ok o => runList c station stage rest ({ l with objs := o }.note (.step station stage obj))
    | .thrown e o => .thrown e ({ l with objs := o }.note (.step station stage obj))
    | .ub => .ub

/-- The speed of light `C_MPS`, in metres per second. -/
def C_MPS : ℚ := 299792458

/-- The set `SatIDSet` built by `gRin.body.getSatID()`, in iteration order. -/
def getSatID (body : List (SatID × typeValueMap)) : List SatID :=
  ((body.map Prod.fst).dedup).insertionSort (fun a b => a ≤ b)

/-- The value of `m[t]` for a `typeValueMap`: an absent type reads as `0.0`. -/
def typeValueMap.at (m : typeValueMap) (t : TypeID) : ℚ :=
  (m t).getD 0

/-- The map after `m[t]` was evaluated: an absent type has been inserted. -/
def typeValueMap.touch (m : typeValueMap) (t : TypeID) : typeValueMap :=
  fun u => if u = t then some (m.at t) else m u

/-- The value of `body[sat][t]`. -/
def bodyValue (body : List (SatID × typeValueMap)) (sat : SatID) (t : TypeID) : ℚ :=
  match body.find? (fun p => p.1 = sat) with
  | some p => p.2.at t
  | none => 0

/-- The body after `body[sat][t]` was evaluated, for a satellite of the body. -/
def bodyTouch (body : List (SatID × typeValueMap)) (sat : SatID) (t : TypeID) :
    List (SatID × typeValueMap) :=
  body.map (fun p => if p.1 = sat then (p.1, p.2.touch t) else p)

/-- The loop over `currSatSet` that fills the matrix `data`, one row per
satellite; `getXvt` throws for a satellite the store does not know. The state
is the body of `gRin` and the rows filled so far. -/
def fillData (ephStore : RealTimeEphStore) (epoTime : CommonTime) :
    List SatID → List (SatID × typeValueMap) × List (List ℚ) →
      Res (List (SatID × typeValueMap) × List (List ℚ))
  | [], s => .ok s
  | sat :: rest, (body, data) =>
    match ephStore.getXvt sat epoTime with
    | none => .thrown .Exception (body, data)
    | some svPosVel =>
      fillData ephStore epoTime rest
        (bodyTouch body sat .P1,
          data ++ [[svPosVel.x.x, svPosVel.x.y, svPosVel.x.z,
            bodyValue body sat .P1 + C_MPS * svPosVel.clkbias]])

/-- The block `if(firstTime)`: the Bancroft bootstrap. The return code of
`Compute` is not looked at; reading `solution[0..2]` from a shorter vector is
undefined. -/
def bootstrap {Ω : Type} (c : Collab Ω) (epoTime : CommonTime) (station : String)
    (l : Locals Ω) : Res (Locals Ω) :=
  let l0 := l.note (.bootstrap station)
  match fillData l0.ephStore epoTime (getSatID l0.objs.gRin.body) (l0.objs.gRin.body, []) with
  | .ub => .ub
  | .thrown e (body, _) =>
    .thrown e { l0 with objs := { l0.objs with gRin := { l0.objs.gRin with body := body } } }
  | .ok (body, data) =>
    let l1 := { l0 with objs := { l0.objs with gRin := { l0.objs.gRin with body := body } } }
    match c.Compute data with
    | .error e => .thrown e l1
    | .ok (_, solution) =>
      match solution with
      | x :: y :: z :: _ =>
        .ok { l1 with objs := { l1.objs with rxPosition := ⟨x, y, z⟩ }, firstTime := false }
      | _ => .ub

/-- The statements between `gRin >> predictList` and `gRin >> correctList`:
the tides at `tempPos`, handed to `corr`, and the parameters of `neillTM`. -/
def tidesAndTropo {Ω : Type} (c : Collab Ω) (epoTime : CommonTime) (station staID4 : String)
    (l : Locals Ω) : Res (Locals Ω) :=
  let tempPos : Position := l.objs.rxPosition
  let l0 := l.note (.tides station)
  match c.getSolidTide epoTime tempPos with
  | .error e => .thrown e l0
  | .ok solid =>
    match c.getOceanLoading staID4 epoTime with
    | .error e => .thrown e l0
    | .ok ocean =>
      match c.getPoleTide epoTime tempPos with
      | .error e => .thrown e l0
      | .ok pole =>
        let tides : Triple := (solid.add ocean).add pole
        .ok ({ l0 with objs := { l0.objs with extraBiases := tides,
                                               neillTM := some (l0.initialTime, tempPos) } }.note
              (.tropo station))

/-- The statement `drytropo = neillTM.dry_zenith_delay()`. -/
def getDryZTD {Ω : Type} (c : Collab Ω) (station : String) (l : Locals Ω) : Res (Locals Ω) :=
  match c.dry_zenith_delay l.objs.neillTM with
  | .error e => .thrown e (l.note (.dryDelay station))
  | .ok d => .ok ({ l with drytropo := d }.note (.dryDelay station))

/-- The `try` block of the station loop. -/
def tryBlock {Ω : Type} (c : Collab Ω) (conf : Conf) (sh : Shared) (epoTime : CommonTime)
    (station staID4 : String) (obsList : List t_satObs) (l : Locals Ω) : Res (Locals Ω) :=
  match sh.obsList2gnssRinex obsList with
  | .error e => .thrown e (l.note (.convert station))
  | .ok g =>
    (runList c station .preprocess (preprocessList conf)
        ({ l with objs := { l.objs with gRin := g } }.note (.convert station))).andThen fun l2 =>
    (if l2.firstTime then bootstrap c epoTime station l2 else .ok l2).andThen fun l3 =>
    (runList c station .predict predictList l3).andThen fun l4 =>
    (tidesAndTropo c epoTime station staID4 l4).andThen fun l5 =>
    (runList c station .correct (correctList conf) l5).andThen fun l6 =>
    getDryZTD c station l6

/-! ## The station loop and the await-batch loop -/

/-- How a run of a loop of `process` ends: it completes with a state, an
exception leaves `process`, the behaviour is undefined, or the given number of
iterations did not suffice. -/
inductive Run (α : Type) where
  | done (a : α)
  | propagated (e : Thrown)
  | undefined
  | outOfFuel

/-- The statements of the station loop after the `try`/`catch`: the optional
model print-out and, for `cycles < 1`, the record of the results stream. -/
def afterTry {Ω : Type} (c : Collab Ω) (conf : Conf) (epoTime : CommonTime) (station : String)
    (l : Locals Ω) : Locals Ω :=
  let l1 := if conf.printModel then l.note (.printModel station) else l
  if conf.filterCycles < 1 then
    { l1 with
      outfile := PPPTask.printSolution c.toYDS l1.outfile (c.pppCorrectSolver l1.objs.internal)
        epoTime (c.cDOP l1.objs.internal) conf.USENEU l1.objs.gRin.numSats l1.drytropo }.note
      (.printSolution station)
  else l1

/-- One pass through the body of `while(itm!=m_staObsMap.end())` for the entry
`*itm`. The result tells whether the pass fell through to `++itm` or ended in
a `continue`, which jumps to the loop condition. -/
def stationBody {Ω : Type} (c : Collab Ω) (conf : Conf) (sh : Shared) (epoTime : CommonTime)
    (entry : String × List t_satObs) (l : Locals Ω) : Run (Locals Ω × Jump) :=
  match entry.2 with
  | [] => .undefined
  | o :: _ =>
    let station : String := o._staID
    let staID4 : String := station.take 4
    if c.isValid staID4 = false then
      .done (l, .continue_)
    else
      match tryBlock c conf sh epoTime station staID4 entry.2 l with
      | .ok l1 => .done (afterTry c conf epoTime station l1, .fallThrough)
      | .thrown e l1 =>
        match selectClause e with
        | none => .propagated e
        | some clause =>
          match clause.body with
          | .continue_ => .done (l1, .continue_)
          | .fallThrough => .done (afterTry c conf epoTime station l1, .fallThrough)
      | .ub => .undefined

/-- The loop `while(itm!=m_staObsMap.end())`, `itm` standing at the head of the
remaining entries, run for at most `fuel` passes. -/
def stationLoop {Ω : Type} (c : Collab Ω) (conf : Conf) (sh : Shared) (epoTime : CommonTime) :
    Nat → StaObsMap → Locals Ω → Run (Locals Ω)
  | _, [], l => .done l
  | 0, _ :: _, _ => .outOfFuel
  | fuel + 1, entry :: rest, l =>
    match stationBody c conf sh epoTime entry l with
    | .done (l1, .fallThrough) => stationLoop c conf sh epoTime fuel rest l1
    | .done (l1, .continue_) => stationLoop c conf sh epoTime fuel (entry :: rest) l1
    | .propagated e => .propagated e
    | .undefined => .undefined
    | .outOfFuel => .outOfFuel

/-- The snapshot: the store is copied under `m_gpsEphMutex`, corrections are
switched on, and `basic`, `corr` and `windup` are pointed at the copy (they hold
a reference to `ephStore`, so this is the value they read). -/
def takeSnapshot {Ω : Type} (sh : Shared) (l : Locals Ω) : Locals Ω :=
  { l with
    ephStore := { sh.m_ephStore with usingCorrection := true }
    done := l.done ++ [.lock .m_gpsEphMutex, .snapshot, .unlock .m_gpsEphMutex] }

/-- The test of the `if` that ends a wake-up with `continue`. -/
def deferBatch (sh : Shared) (epoTime : CommonTime) : Bool :=
  decide (sh.task.m_staObsMap.length ≠ 0) && !PPPTask.waitForCorr sh.task epoTime

/-- One pass through the body of `while(1)`: the wait for a batch, the gate, the
snapshot and the station loop. `itm->second` and `itl->_time` are read before
the map is tested, so an empty map or an empty first list is undefined. The
`unique_lock` on `m_allObsMutex` is released when the pass ends. -/
def wakeUp {Ω : Type} (c : Collab Ω) (conf : Conf) (fuel : Nat) (sh : Shared) (l : Locals Ω) :
    Run (Locals Ω) :=
  let l0 := (l.note (.lock .m_allObsMutex)).note .wait
  match sh.task.m_staObsMap with
  | [] => .undefined
  | (_, []) :: _ => .undefined
  | (_, o :: _) :: _ =>
    let epoTime : CommonTime := o._time
    if deferBatch sh epoTime then
      .done (l0.note (.unlock .m_allObsMutex))
    else
      match stationLoop c conf sh epoTime fuel sh.task.m_staObsMap (takeSnapshot sh l0) with
      | .done l1 => .done (l1.note (.unlock .m_allObsMutex))
      | .propagated e => .propagated e
      | .undefined => .undefined
      | .outOfFuel => .outOfFuel

/-- The loop `while(1)` of `process` over the successive wake-ups, each with the
shared data found at that moment. A `done` result is the state in which the
loop waits for the next batch. -/
def processLoop {Ω : Type} (c : Collab Ω) (conf : Conf) (fuel : Nat) :
    List Shared → Locals Ω → Run (Locals Ω)
  | [], l => .done l
  | sh :: later, l =>
    match wakeUp c conf fuel sh l with
    | .done l1 => processLoop c conf fuel later l1
    | .propagated e => .propagated e
    | .undefined => .undefined
    | .outOfFuel => .outOfFuel

/-- The state a run completed with, if it completed. -/
def Run.result {α : Type} : Run α → Option α
  | .done a => some a
  | _ => none

/-- The first part of the `try` block: the conversion of the observations, the
preprocess list and, while `firstTime` is set, the bootstrap. -/
def tryFront {Ω : Type} (c : Collab Ω) (conf : Conf) (sh : Shared) (epoTime : CommonTime)
    (station : String) (obsList : List t_satObs) (l : Locals Ω) : Res (Locals Ω) :=
  match sh.obsList2gnssRinex obsList with
  | .error e => .thrown e (l.note (.convert station))
  | .ok g =>
    (runList c station .preprocess (preprocessList conf)
        ({ l with objs := { l.objs with gRin := g } }.note (.convert station))).andThen fun l2 =>
    if l2.firstTime then bootstrap c epoTime station l2 else .ok l2

/-- The second part of the `try` block: the predict list, the tides and the
tropospheric parameters, the correct list and the dry delay. -/
def tryBack {Ω : Type} (c : Collab Ω) (conf : Conf) (epoTime : CommonTime)
    (station staID4 : String) (l3 : Locals Ω) : Res (Locals Ω) :=
  (runList c station .predict predictList l3).andThen fun l4 =>
  (tidesAndTropo c epoTime station staID4 l4).andThen fun l5 =>
  (runList c station .correct (correctList conf) l5).andThen fun l6 =>
  getDryZTD c station l6

/-! ## Scenario data for the correction gate -/

/-- A task as constructed, after a clock correction stamped day 58000, 100 s
has been received. -/
def gateTask : PPPTask :=
  { PPPTask.PPPTask with m_lastClkCorrTime := ⟨58000, 100000, 0⟩ }

/-- The time stamp on the correction's day `s` seconds after midnight. -/
def atSecond (s : Int) : CommonTime := ⟨58000, 1000 * s, 0⟩

/-! ## Scenario data for the station loop -/

/-- A store that knows every satellite. -/
def demoStore : RealTimeEphStore where
  getXvt := fun sat _ => some ⟨⟨(sat : ℚ), 0, 0⟩, 0⟩
  usingCorrection := false

/-- A conversion that gives `gRin` one body entry per observation of the list. -/
def demoConvert (obsList : List t_satObs) : Except Thrown gnssRinex :=
  match obsList with
  | [] => .error .Exception
  | o :: _ =>
    .ok { epoch := o._time
          body := (List.range obsList.length).map fun i =>
            (i + 1, fun t => if t = TypeID.P1 then some 20000000 else none) }

/-- Collaborators for the scenarios. A processing object throws what `fault`
tells for the number of satellites in `gRin`, and otherwise counts one more run
in the internal state; the bootstrap solution depends on the matrix it is given. -/
def demoCollab (fault : ProcObj → Nat → Option Thrown) : Collab Nat where
  isValid := fun _ => true
  Process := fun obj _ o =>
    match fault obj o.gRin.body.length with
    | some e => .thrown e o
    | none => .ok { o with internal := o.internal + 1 }
  Compute := fun data => .ok (0, [(data.length : ℚ), 2, 3, 4])
  getSolidTide := fun _ _ => .ok ⟨0, 0, 0⟩
  getOceanLoading := fun _ _ => .ok ⟨0, 0, 0⟩
  getPoleTide := fun _ _ => .ok ⟨0, 0, 0⟩
  dry_zenith_delay := fun _ => .ok 2
  pppCorrectSolver := fun _ => ⟨fun _ => 0, false⟩
  cDOP := fun _ => ⟨1, 1⟩
  toYDS := fun t => ⟨2017, t.m_day, t.getSecondOfDay⟩

/-- No processing object throws. -/
def noFault : ProcObj → Nat → Option Thrown := fun _ _ => none

/-- The required-observables check throws `SVNumException` for fewer than four
satellites. -/
def tooFewSats : ProcObj → Nat → Option Thrown := fun obj n =>
  if obj = .requireObs ∧ n < 4 then some .SVNumException else none

/-- The correct solver throws an `Exception` (a singular measurement update)
for an epoch of exactly six satellites. -/
def singularUpdate : ProcObj → Nat → Option Thrown := fun obj n =>
  if obj = .pppCorrectSolver ∧ n = 6 then some .Exception else none

/-- A configuration: forwards-only filter, ECEF output, no model print-out. -/
def demoConf : Conf where
  filterCode := true
  cutOffElevation := 10
  useAntex := false
  filterPC := true
  USENEU := false
  decimationInterval := 1
  filterCycles := 0
  KinematicMode := false
  AccelerationSigma := 1
  precision := 3
  printModel := false

/-- The observations of `n` satellites for a station at second `s` of the day. -/
def obsOf (station : String) (s : Int) (n : Nat) : List t_satObs :=
  List.replicate n ⟨station, atSecond s⟩

/-- The shared data of a wake-up with the given station map, the last clock
correction being stamped at second 100. -/
def demoShared (staObsMap : StaObsMap) : Shared where
  task := { gateTask with m_staObsMap := staObsMap }
  m_ephStore := demoStore
  obsList2gnssRinex := demoConvert

/-- The locals of `process` when the loop `while(1)` is entered. -/
def demoLocals : Locals Nat where
  ephStore := demoStore
  objs := { gRin := ⟨CommonTime.zero, []⟩, rxPosition := ⟨0, 0, 0⟩, neillTM := none,
            extraBiases := ⟨0, 0, 0⟩, internal := 0 }
  initialTime := CommonTime.zero
  drytropo := 0
  firstTime := true
  outfile := []
  done := []

/-- A batch of two stations, four and five satellites, 3 s after the correction. -/
def twoStations : StaObsMap :=
  [("ALGO", obsOf "ALGO00CAN" 103 4), ("BRUX", obsOf "BRUX00BEL" 103 5)]

/-- A batch whose first station has only three satellites. -/
def weakThenGood : StaObsMap :=
  [("ALGO", obsOf "ALGO00CAN" 103 3), ("BRUX", obsOf "BRUX00BEL" 103 5)]

/-- The batch of two stations, stamped 6 s after the correction. -/
def staleBatch : StaObsMap :=
  [("ALGO", obsOf "ALGO00CAN" 106 4), ("BRUX", obsOf "BRUX00BEL" 106 5)]

/-- The configuration with `filterCycles` set to one. -/
def cyclesConf : Conf := { demoConf with filterCycles := 1 }

/-- The map entry of a station with four satellites. -/
def entryALGO : String × List t_satObs := ("ALGO", obsOf "ALGO00CAN" 103 4)

/-- The map entry of a station with five satellites. -/
def entryBRUX : String × List t_satObs := ("BRUX", obsOf "BRUX00BEL" 103 5)

/-- The map entry of a station with six satellites. -/
def entryCEDU : String × List t_satObs := ("CEDU", obsOf "CEDU00AUS" 103 6)

/-- The locals at the throw in the pass for the three-satellite station of
`weakThenGood`, started from `demoLocals`. -/
def atThrowALGO : Locals Nat :=
  (({ demoLocals with objs := { demoLocals.objs with gRin :=
      { epoch := atSecond 103
        body := (List.range 3).map fun i =>
          (i + 1, fun t => if t = TypeID.P1 then some 20000000 else none) } } }.note
    (.convert "ALGO00CAN")).note (.step "ALGO00CAN" .preprocess .requireObs))

/-! ## Further scenario data and observers -/

/-- Whether an event is one of the station loop: everything but locking,
waiting and the snapshot. -/
def Event.inStation : Event → Bool
  | .lock _ => false
  | .unlock _ => false
  | .wait => false
  | .snapshot => false
  | _ => true

/-- Whether an event is one of the `try` block of the station loop. -/
def Event.inTry : Event → Bool
  | .convert _ => true
  | .step _ _ _ => true
  | .bootstrap _ => true
  | .tides _ => true
  | .tropo _ => true
  | .dryDelay _ => true
  | _ => false

/-- The mutexes held after a sequence of events, `held` being held before it. -/
def holdAfter (held : List Mutex) : List Event → List Mutex
  | [] => held
  | .lock m :: rest => holdAfter (m :: held) rest
  | .unlock m :: rest => holdAfter (held.erase m) rest
  | _ :: rest => holdAfter held rest

/-- Each event of a sequence with the mutexes held when it happens. -/
def withLocks (held : List Mutex) : List Event → List (Event × List Mutex)
  | [] => []
  | ev :: rest => (ev, held) :: withLocks (holdAfter held [ev]) rest

/-- A property of the state a result carries, whether it completed or threw. -/
def Res.Holds {σ : Type} (P : σ → Prop) : Res σ → Prop
  | .ok s => P s
  | .thrown _ s => P s
  | .ub => True

/-- The state `l1` comes from `l` by statements of the `try` block: the
snapshot, `initialTime` and the results stream are the same, and what was done
in between are events of the `try` block. -/
def Locals.Extends {Ω : Type} (l l1 : Locals Ω) : Prop :=
  l1.ephStore = l.ephStore ∧ l1.initialTime = l.initialTime ∧ l1.outfile = l.outfile ∧
    ∃ evs, l1.done = l.done ++ evs ∧ ∀ ev ∈ evs, Event.inTry ev = true

/-- The state `l1` comes from `l` by passes of the station loop: the snapshot
is the same and what was done in between are events of the station loop. -/
def Locals.InBatch {Ω : Type} (l l1 : Locals Ω) : Prop :=
  l1.ephStore = l.ephStore ∧
    ∃ evs, l1.done = l.done ++ evs ∧ ∀ ev ∈ evs, Event.inStation ev = true

/-- The correct solver throws `SVNumException` for fewer than four satellites. -/
def solverTooFew : ProcObj → Nat → Option Thrown := fun obj n =>
  if obj = .pppCorrectSolver ∧ n < 4 then some .SVNumException else none

/-- The map entry of a station with three satellites. -/
def entryDAEJ : String × List t_satObs := ("DAEJ", obsOf "DAEJ00KOR" 103 3)

/-- The collaborators with every processing object made to read the given
store, whatever store it is handed. -/
def Collab.pinned {Ω : Type} (c : Collab Ω) (store : RealTimeEphStore) : Collab Ω :=
  { c with Process := fun obj _ o => c.Process obj store o }

/-- The row of the matrix `data` for one satellite: the position of the
satellite and `P1 + C_MPS * clkbias`, from the store at the epoch time. -/
def dataRow (ephStore : RealTimeEphStore) (epoTime : CommonTime)
    (body : List (SatID × typeValueMap)) (sat : SatID) : List ℚ :=
  match ephStore.getXvt sat epoTime with
  | some svPosVel =>
    [svPosVel.x.x, svPosVel.x.y, svPosVel.x.z,
      bodyValue body sat .P1 + C_MPS * svPosVel.clkbias]
  | none => []

/-- The return code of `Bancroft::Compute` for a matrix, if it returns. -/
def bancroftRet {Ω : Type} (c : Collab Ω) (data : List (List ℚ)) : Option Int :=
  match c.Compute data with
  | .ok (ret, _) => some ret
  | .error _ => none

/-- Collaborators whose multilateration reports failure (return code -1) for
fewer than four rows and still fills the solution vector. -/
def failingBancroft : Collab Nat :=
  { demoCollab noFault with
    Compute := fun data => .ok (if data.length < 4 then -1 else 0, [(data.length : ℚ), 2, 3, 4]) }

/-- Collaborators whose multilateration reports failure for fewer than four
rows and leaves the solution vector empty. -/
def emptyBancroft : Collab Nat :=
  { demoCollab noFault with
    Compute := fun data =>
      if data.length < 4 then .ok (-1, []) else .ok (0, [(data.length : ℚ), 2, 3, 4]) }

/-- The body of `gRin` for the three-satellite station, as converted. -/
def bodyDAEJ : List (SatID × typeValueMap) :=
  (List.range 3).map fun i => (i + 1, fun t => if t = TypeID.P1 then some 20000000 else none)

/-- Whether a result is a normal completion. -/
def Res.isOk {σ : Type} : Res σ → Bool
  | .ok _ => true
  | _ => false

/-- The locals after the conversion and preprocessing of an epoch of four
satellites, first-time flag set. -/
def bootLocals : Locals Nat :=
  { demoLocals with
    objs := { demoLocals.objs with
      gRin := { epoch := atSecond 103
                body := [(7, fun t => if t = TypeID.P1 then some 21000000 else none),
                         (3, fun t => if t = TypeID.P1 then some 20000000 else none),
                         (12, fun t => if t = TypeID.P1 then some 23000000 else none),
                         (5, fun t => if t = TypeID.P1 then some 22000000 else none)] } } }

/-! ## Start-up and `run` -/

/-- How a call ends: it returns a value, an exception leaves it, `exit` ends
the program with a status, the consumer is blocked in the wait for a batch that
has not come, the behaviour is undefined, or the station loop was cut off. -/
inductive Ended (α : Type) where
  | returned (a : α)
  | threw (e : Thrown)
  | exited (status : Int)
  | waiting
  | undefined
  | outOfFuel

/-- How the opening of a data file ends: the file is loaded, the call throws
`FileMissingException` (the file does not exist or cannot be read), or it
throws something else. -/
inductive OpenResult where
  | opened
  | FileMissingException
  | threw (e : Thrown)
  deriving DecidableEq, Repr

/-- What `run` meets at start-up: whether the configuration file of a given
name opens, the value of `oceanLoadingFile`, how `blqStore.open` ends for a
name, whether the EOP file list of a given name opens, how `loadIGSFile` ends
for each name read from it, and `setup`, the configuration values read while
the processing objects are built (or the exception thrown there). -/
structure Startup where
  confOpens : String → Bool
  oceanLoadingFile : Except Thrown String
  blqOpen : String → OpenResult
  eopListOpens : String → Bool
  eopFiles : List (String × OpenResult)
  setup : Except Thrown Conf

/-- The method `PPPTask::spinUp`: an empty name is replaced by `ppprt.conf`; a
configuration file that does not open ends the program with `exit (-1)`. -/
def PPPTask.spinUp (env : Startup) (self : PPPBox.PPPTask) : Ended PPPBox.PPPTask :=
  let self1 : PPPBox.PPPTask :=
    if self.m_sPPPConfFile.length = 0 then { self with m_sPPPConfFile := "ppprt.conf" } else self
  if env.confOpens self1.m_sPPPConfFile then .returned self1 else .exited (-1)

/-- The loop `while( eopFileListStream >> eopFile )`: a missing EOP file is
skipped with `continue`; any other exception leaves the loop. -/
def loadEopFiles : List (String × OpenResult) → Option Thrown
  | [] => none
  | (_, .opened) :: rest => loadEopFiles rest
  | (_, .FileMissingException) :: rest => loadEopFiles rest
  | (_, .threw e) :: _ => some e

/-- The store `ephStore` as declared at the top of `process`, before any copy. -/
def emptyStore : RealTimeEphStore where
  getXvt := fun _ _ => none
  usingCorrection := false

/-- The locals of `process` when `while(1)` is entered, `objs` being the
processing objects as built. -/
def initialLocals {Ω : Type} (objs : Objects Ω) : Locals Ω where
  ephStore := emptyStore
  objs := objs
  initialTime := CommonTime.zero
  drytropo := 0
  firstTime := true
  outfile := []
  done := []

/-- The method `PPPTask::process`: the BLQ file, the EOP file list and files,
the set-up of the processing objects, then the loop `while(1)` over the
wake-ups. The loop has no `break` and no `return`: when the wake-ups given are
used up the consumer is in the wait. -/
def PPPTask.process {Ω : Type} (c : Collab Ω) (env : Startup) (fuel : Nat)
    (wakeUps : List Shared) (objs : Objects Ω) (self : PPPBox.PPPTask) : Ended Unit :=
  match env.oceanLoadingFile with
  | .error e => .threw e
  | .ok blqFile =>
    match env.blqOpen blqFile with
    | .FileMissingException => .exited (-1)
    | .threw e => .threw e
    | .opened =>
      if env.eopListOpens self.m_sEopFileListName = false then
        .exited (-1)
      else
        match loadEopFiles env.eopFiles with
        | some e => .threw e
        | none =>
          match env.setup with
          | .error e => .threw e
          | .ok conf =>
            match processLoop c conf fuel wakeUps (initialLocals objs) with
            | .done _ => .waiting
            | .propagated e => .threw e
            | .undefined => .undefined
            | .outOfFuel => .outOfFuel

/-- The method `PPPTask::processFiles`, whose body is empty. -/
def PPPTask.processFiles (_self : PPPBox.PPPTask) : Ended Unit := .returned ()

/-- The body of `PPPTask::run` for given outcomes of the calls it makes:
`return true` follows `process()`; `catch(...)` swallows every exception and
`return false` follows. -/
def PPPTask.runBody (self : PPPBox.PPPTask) (spinUp : Ended PPPBox.PPPTask)
    (process : PPPBox.PPPTask → Ended Unit) (processFiles : Ended Unit) : Ended Bool :=
  if self.m_bRealTime then
    match spinUp with
    | .returned self1 =>
      match process self1 with
      | .returned _ => .returned true
      | .threw _ => .returned false
      | .exited status => .exited status
      | .waiting => .waiting
      | .undefined => .undefined
      | .outOfFuel => .outOfFuel
    | .threw _ => .returned false
    | .exited status => .exited status
    | .waiting => .waiting
    | .undefined => .undefined
    | .outOfFuel => .outOfFuel
  else
    match processFiles with
    | .returned _ => .returned false
    | .threw _ => .returned false
    | .exited status => .exited status
    | .waiting => .waiting
    | .undefined => .undefined
    | .outOfFuel => .outOfFuel

/-- The method `PPPTask::run`. -/
def PPPTask.run {Ω : Type} (c : Collab Ω) (env : Startup) (fuel : Nat)
    (wakeUps : List Shared) (objs : Objects Ω) (self : PPPBox.PPPTask) : Ended Bool :=
  self.runBody (self.spinUp env) (fun self1 => self1.process c env fuel wakeUps objs)
    self.processFiles

/-- A start-up in which every file opens. -/
def demoStartup : Startup where
  confOpens := fun _ => true
  oceanLoadingFile := .ok "OCEAN-GOT00.dat"
  blqOpen := fun _ => .opened
  eopListOpens := fun _ => true
  eopFiles := [("igs19P2038.erp", .opened), ("igs19P2039.erp", .FileMissingException)]
  setup := .ok demoConf

/-- A start-up without the configuration file. -/
def noConfFile : Startup := { demoStartup with confOpens := fun _ => false }

/-- A start-up without the BLQ file. -/
def noBlqFile : Startup := { demoStartup with blqOpen := fun _ => .FileMissingException }

/-- A start-up without the EOP file list. -/
def noEopList : Startup := { demoStartup with eopListOpens := fun _ => false }

/-- A start-up in which a configuration value cannot be read. -/
def badSetup : Startup := { demoStartup with setup := .error .Exception }

/-- The name of the configuration file that `spinUp` opens. -/
def PPPTask.confFileName (self : PPPBox.PPPTask) : String :=
  if self.m_sPPPConfFile.length = 0 then "ppprt.conf" else self.m_sPPPConfFile

/-! ## Scenario data for the last stations and the empty batch -/

/-- Collaborators whose BLQ store has no data for the station `ALGO`. -/
def noBlqCollab : Collab Nat :=
  { demoCollab noFault with isValid := fun staID4 => decide (staID4 ≠ "ALGO") }

/-- The statements of a pass of `while(1)` that follow the reads of
`itm->second` and `itl->_time`, for the value `epoTime` that the reference
`itl->_time` gives: the gate, the snapshot and the station loop. -/
def afterRead {Ω : Type} (c : Collab Ω) (conf : Conf) (fuel : Nat) (sh : Shared)
    (l0 : Locals Ω) (epoTime : CommonTime) : Run (Locals Ω) :=
  if deferBatch sh epoTime then
    .done (l0.note (.unlock .m_allObsMutex))
  else
    match stationLoop c conf sh epoTime fuel sh.task.m_staObsMap (takeSnapshot sh l0) with
    | .done l1 => .done (l1.note (.unlock .m_allObsMutex))
    | .propagated e => .propagated e
    | .undefined => .undefined
    | .outOfFuel => .outOfFuel

/-- Whether a run ended in undefined behaviour. -/
def Run.isUndefined {α : Type} : Run α → Bool
  | .undefined => true
  | _ => false

/-- A store that gives every satellite a position and the clock bias
`1 / C_MPS`, one metre of range. -/
def clockStore : RealTimeEphStore where
  getXvt := fun sat _ => some ⟨⟨(sat : ℚ), 2 * (sat : ℚ), 3 * (sat : ℚ)⟩, 1 / 299792458⟩
  usingCorrection := true

/-- The locals `bootLocals` with the snapshot `clockStore`. -/
def clockLocals : Locals Nat := { bootLocals with ephStore := clockStore }

/-- The matrix that the loop over the satellites has filled, if it completed. -/
def filledData (r : Res (List (SatID × typeValueMap) × List (List ℚ))) :
    Option (List (List ℚ)) :=
  match r with
  | .ok (_, data) => some data
  | _ => none

/-! ## Theorems -/

/-- C1: with the constructor's maximum correction wait of 5 s, real-time mode,
the mount `IGS03` and a set last-correction time, `waitForCorr` defers an epoch
of age 6 s, lets an epoch of age 3 s proceed and defers an epoch of age -1 s. -/
theorem waitForCorr_gating_scenario :
    gateTask.m_dCorrWaitTime = 5 ∧ gateTask.m_bRealTime = true ∧
    gateTask.m_sCorrMount ≠ "" ∧
    CommonTime.sub (atSecond 106) gateTask.m_lastClkCorrTime = 6 ∧
    PPPTask.waitForCorr gateTask (atSecond 106) = false ∧
    CommonTime.sub (atSecond 103) gateTask.m_lastClkCorrTime = 3 ∧
    PPPTask.waitForCorr gateTask (atSecond 103) = true ∧
    CommonTime.sub (atSecond 99) gateTask.m_lastClkCorrTime = -1 ∧
    PPPTask.waitForCorr gateTask (atSecond 99) = false := by
  have hm : ¬ ("IGS03" : String) = "" := by decide
  refine ⟨rfl, rfl, by decide, ?_, ?_, ?_, ?_, ?_, ?_⟩ <;>
    norm_num [PPPTask.waitForCorr, gateTask, atSecond, CommonTime.sub, CommonTime.getDays,
      CommonTime.getSecondOfDay, PPPTask.PPPTask, hm]

/-- C2: whenever `waitForCorr` lets an epoch proceed, the last-correction time is
set (neither its day value nor its second of day is zero) and the correction age
`epoTime - m_lastClkCorrTime` is strictly positive and not beyond the configured
maximum wait. -/
theorem waitForCorr_true_bounds_age (self : PPPTask) (epoTime : CommonTime)
    (h : PPPTask.waitForCorr self epoTime = true) :
    self.m_lastClkCorrTime.getDays ≠ 0 ∧ self.m_lastClkCorrTime.getSecondOfDay ≠ 0 ∧
    0 < CommonTime.sub epoTime self.m_lastClkCorrTime ∧
    CommonTime.sub epoTime self.m_lastClkCorrTime ≤ self.m_dCorrWaitTime := by
  unfold PPPTask.waitForCorr at h
  dsimp only at h
  split_ifs at h with h1 h2 h3
  · push_neg at h2
    exact ⟨h2.1, h2.2, by linarith [h3.1], le_of_lt h3.2⟩

/-- C2 (witness): the gate is open for the 3 s old correction of the scenario. -/
theorem waitForCorr_true_bounds_age_witness :
    gateTask.m_lastClkCorrTime.getDays ≠ 0 ∧ gateTask.m_lastClkCorrTime.getSecondOfDay ≠ 0 ∧
    0 < CommonTime.sub (atSecond 103) gateTask.m_lastClkCorrTime ∧
    CommonTime.sub (atSecond 103) gateTask.m_lastClkCorrTime ≤ gateTask.m_dCorrWaitTime :=
  waitForCorr_true_bounds_age gateTask (atSecond 103)
    (by
      have hm : ¬ ("IGS03" : String) = "" := by decide
      norm_num [PPPTask.waitForCorr, gateTask, atSecond, CommonTime.sub, CommonTime.getDays,
        CommonTime.getSecondOfDay, PPPTask.PPPTask, hm])

/-! ### Exceptions never leave the station loop -/

theorem selectClause_isSome (e : Thrown) : ∃ clause, selectClause e = some clause := by
  cases e <;> exact ⟨_, rfl⟩

theorem clause_body_continue (clause : CatchClause) : clause.body = .continue_ := by
  cases clause <;> rfl

theorem stationBody_not_propagated {Ω : Type} (c : Collab Ω) (conf : Conf) (sh : Shared)
    (epoTime : CommonTime) (entry : String × List t_satObs) (l : Locals Ω) (e : Thrown) :
    stationBody c conf sh epoTime entry l ≠ .propagated e := by
  unfold stationBody
  split
  · simp
  · dsimp only
    split_ifs
    · simp
    · split
      · simp
      · rename_i e1 l1 _
        obtain ⟨clause, hc⟩ := selectClause_isSome e1
        rw [hc]
        dsimp only
        rw [clause_body_continue]
        simp
      · simp

theorem stationLoop_not_propagated {Ω : Type} (c : Collab Ω) (conf : Conf) (sh : Shared)
    (epoTime : CommonTime) (e : Thrown) (fuel : Nat) :
    ∀ (m : StaObsMap) (l : Locals Ω), stationLoop c conf sh epoTime fuel m l ≠ .propagated e := by
  induction fuel with
  | zero =>
    intro m l
    cases m <;> simp [stationLoop]
  | succ n ih =>
    intro m l
    cases m with
    | nil => simp [stationLoop]
    | cons entry rest =>
      unfold stationLoop
      have hb := stationBody_not_propagated c conf sh epoTime entry l e
      split
      · exact ih _ _
      · exact ih _ _
      · rename_i e1 h
        intro heq
        injection heq with heq
        subst heq
        exact hb h
      · simp
      · simp

theorem wakeUp_not_propagated {Ω : Type} (c : Collab Ω) (conf : Conf) (fuel : Nat)
    (sh : Shared) (l : Locals Ω) (e : Thrown) : wakeUp c conf fuel sh l ≠ .propagated e := by
  unfold wakeUp
  dsimp only
  split
  · simp
  · simp
  · split_ifs
    · simp
    · split
      · simp
      · rename_i e1 h
        intro heq
        injection heq with heq
        subst heq
        exact stationLoop_not_propagated c conf sh _ e1 fuel _ _ h
      · simp
      · simp

theorem processLoop_not_propagated {Ω : Type} (c : Collab Ω) (conf : Conf) (fuel : Nat)
    (wakeUps : List Shared) (l : Locals Ω) (e : Thrown) :
    processLoop c conf fuel wakeUps l ≠ .propagated e := by
  induction wakeUps generalizing l with
  | nil => simp [processLoop]
  | cons sh later ih =>
    unfold processLoop
    split
    · exact ih _
    · rename_i e1 h
      intro heq
      injection heq with heq
      subst heq
      exact wakeUp_not_propagated c conf fuel sh l e1 h
    · simp
    · simp

/-! ### What a completed or abandoned pass has done -/

theorem Res.andThen_eq_ok {σ : Type} {r : Res σ} {f : σ → Res σ} {s : σ}
    (h : r.andThen f = .ok s) : ∃ s1, r = .ok s1 ∧ f s1 = .ok s := by
  cases r with
  | ok s1 => exact ⟨s1, rfl, h⟩
  | thrown e s1 => simp [Res.andThen] at h
  | ub => simp [Res.andThen] at h

theorem Res.andThen_eq_thrown {σ : Type} {r : Res σ} {f : σ → Res σ} {e : Thrown} {s : σ}
    (h : r.andThen f = .thrown e s) :
    r = .thrown e s ∨ ∃ s1, r = .ok s1 ∧ f s1 = .thrown e s := by
  cases r with
  | ok s1 => exact Or.inr ⟨s1, rfl, h⟩
  | thrown e1 s1 =>
    simp only [Res.andThen] at h
    exact Or.inl h
  | ub => simp [Res.andThen] at h

theorem runList_ok {Ω : Type} (c : Collab Ω) (station : String) (stage : Stage)
    (list : List ProcObj) :
    ∀ (l l1 : Locals Ω), runList c station stage list l = .ok l1 →
      l1.done = l.done ++ list.map (Event.step station stage) ∧ l1.firstTime = l.firstTime := by
  induction list with
  | nil =>
    intro l l1 h
    simp only [runList, Res.ok.injEq] at h
    subst h
    simp
  | cons obj rest ih =>
    intro l l1 h
    unfold runList at h
    split at h
    · obtain ⟨h1, h2⟩ := ih _ _ h
      simp only [Locals.note] at h1 h2
      simp [h1, h2]
    · simp at h
    · simp at h

theorem runList_thrown {Ω : Type} (c : Collab Ω) (station : String) (stage : Stage)
    (list : List ProcObj) :
    ∀ (l l1 : Locals Ω) (e : Thrown), runList c station stage list l = .thrown e l1 →
      l1.firstTime = l.firstTime := by
  induction list with
  | nil =>
    intro l l1 e h
    simp [runList] at h
  | cons obj rest ih =>
    intro l l1 e h
    unfold runList at h
    split at h
    · have h2 := ih _ _ _ h
      simpa [Locals.note] using h2
    · simp only [Res.thrown.injEq] at h
      obtain ⟨_, h⟩ := h
      subst h
      rfl
    · simp at h

theorem bootstrap_ok {Ω : Type} (c : Collab Ω) (epoTime : CommonTime) (station : String)
    (l l1 : Locals Ω) (h : bootstrap c epoTime station l = .ok l1) :
    l1.done = l.done ++ [Event.bootstrap station] ∧ l1.firstTime = false := by
  unfold bootstrap at h
  dsimp only at h
  split at h
  · simp at h
  · simp at h
  · split at h
    · simp at h
    · split at h
      · simp only [Res.ok.injEq] at h
        subst h
        simp [Locals.note]
      · simp at h

theorem tidesAndTropo_ok {Ω : Type} (c : Collab Ω) (epoTime : CommonTime)
    (station staID4 : String) (l l1 : Locals Ω)
    (h : tidesAndTropo c epoTime station staID4 l = .ok l1) :
    l1.done = l.done ++ [Event.tides station, Event.tropo station] ∧
      l1.firstTime = l.firstTime := by
  unfold tidesAndTropo at h
  dsimp only at h
  split at h
  · simp at h
  · split at h
    · simp at h
    · split at h
      · simp at h
      · simp only [Res.ok.injEq] at h
        subst h
        simp [Locals.note]

theorem tidesAndTropo_thrown {Ω : Type} (c : Collab Ω) (epoTime : CommonTime)
    (station staID4 : String) (l l1 : Locals Ω) (e : Thrown)
    (h : tidesAndTropo c epoTime station staID4 l = .thrown e l1) :
    l1.firstTime = l.firstTime := by
  unfold tidesAndTropo at h
  dsimp only at h
  split at h
  · simp only [Res.thrown.injEq] at h
    obtain ⟨_, h⟩ := h
    subst h
    rfl
  · split at h
    · simp only [Res.thrown.injEq] at h
      obtain ⟨_, h⟩ := h
      subst h
      rfl
    · split at h
      · simp only [Res.thrown.injEq] at h
        obtain ⟨_, h⟩ := h
        subst h
        rfl
      · simp at h

theorem getDryZTD_ok {Ω : Type} (c : Collab Ω) (station : String) (l l1 : Locals Ω)
    (h : getDryZTD c station l = .ok l1) :
    l1.done = l.done ++ [Event.dryDelay station] ∧ l1.firstTime = l.firstTime := by
  unfold getDryZTD at h
  split at h
  · simp at h
  · simp only [Res.ok.injEq] at h
    subst h
    simp [Locals.note]

theorem getDryZTD_thrown {Ω : Type} (c : Collab Ω) (station : String) (l l1 : Locals Ω)
    (e : Thrown) (h : getDryZTD c station l = .thrown e l1) :
    l1.firstTime = l.firstTime := by
  unfold getDryZTD at h
  split at h
  · simp only [Res.thrown.injEq] at h
    obtain ⟨_, h⟩ := h
    subst h
    rfl
  · simp at h

theorem afterTry_done {Ω : Type} (c : Collab Ω) (conf : Conf) (epoTime : CommonTime)
    (station : String) (l : Locals Ω) :
    (afterTry c conf epoTime station l).done =
      l.done ++ (if conf.printModel then [Event.printModel station] else []) ++
        (if conf.filterCycles < 1 then [Event.printSolution station] else []) := by
  unfold afterTry
  by_cases hp : conf.printModel = true <;> by_cases hc : conf.filterCycles < 1 <;>
    simp [hp, hc, Locals.note]

theorem stationBody_of_thrown {Ω : Type} (c : Collab Ω) (conf : Conf) (sh : Shared)
    (epoTime : CommonTime) (key : String) (o : t_satObs) (os : List t_satObs)
    (l l1 : Locals Ω) (e : Thrown) (hvalid : c.isValid (o._staID.take 4) = true)
    (h : tryBlock c conf sh epoTime o._staID (o._staID.take 4) (o :: os) l = .thrown e l1) :
    stationBody c conf sh epoTime (key, o :: os) l = .done (l1, .continue_) := by
  obtain ⟨clause, hc⟩ := selectClause_isSome e
  simp [stationBody, hvalid, h, hc, clause_body_continue]

theorem stationBody_fallThrough {Ω : Type} (c : Collab Ω) (conf : Conf) (sh : Shared)
    (epoTime : CommonTime) (key : String) (o : t_satObs) (os : List t_satObs)
    (l l1 : Locals Ω)
    (h : stationBody c conf sh epoTime (key, o :: os) l = .done (l1, .fallThrough)) :
    ∃ l2, tryBlock c conf sh epoTime o._staID (o._staID.take 4) (o :: os) l = .ok l2 ∧
      l1 = afterTry c conf epoTime o._staID l2 := by
  unfold stationBody at h
  dsimp only at h
  split_ifs at h with hv
  · simp at h
  split at h
  · rename_i l2 htry
    simp only [Run.done.injEq, Prod.mk.injEq, and_true] at h
    exact ⟨l2, htry, h.symm⟩
  · rename_i e1 l2 htry
    obtain ⟨clause, hc⟩ := selectClause_isSome e1
    rw [hc] at h
    dsimp only at h
    rw [clause_body_continue] at h
    simp at h
  · simp at h

theorem tryBlock_ok_done {Ω : Type} (c : Collab Ω) (conf : Conf) (sh : Shared)
    (epoTime : CommonTime) (station staID4 : String) (obsList : List t_satObs)
    (l l1 : Locals Ω) (h : tryBlock c conf sh epoTime station staID4 obsList l = .ok l1) :
    l1.done = l.done ++ [Event.convert station] ++
      (preprocessList conf).map (Event.step station .preprocess) ++
      (if l.firstTime then [Event.bootstrap station] else []) ++
      predictList.map (Event.step station .predict) ++
      [Event.tides station, Event.tropo station] ++
      (correctList conf).map (Event.step station .correct) ++
      [Event.dryDelay station] := by
  unfold tryBlock at h
  split at h
  · simp at h
  · obtain ⟨l2, h2, h⟩ := Res.andThen_eq_ok h
    obtain ⟨l3, hb, h⟩ := Res.andThen_eq_ok h
    obtain ⟨l4, h3, h⟩ := Res.andThen_eq_ok h
    obtain ⟨l5, h4, h⟩ := Res.andThen_eq_ok h
    obtain ⟨l6, h5, h6⟩ := Res.andThen_eq_ok h
    obtain ⟨d2, f2⟩ := runList_ok c station .preprocess _ _ _ h2
    obtain ⟨d4, _⟩ := runList_ok c station .predict _ _ _ h3
    obtain ⟨d5, _⟩ := tidesAndTropo_ok c epoTime station staID4 _ _ h4
    obtain ⟨d6, _⟩ := runList_ok c station .correct _ _ _ h5
    obtain ⟨d7, _⟩ := getDryZTD_ok c station _ _ h6
    simp only [Locals.note] at d2 f2
    have d3 : l3.done = l2.done ++ (if l.firstTime then [Event.bootstrap station] else []) := by
      by_cases hf : l.firstTime = true
      · rw [f2, hf] at hb
        simp only [if_true] at hb
        simp [hf, (bootstrap_ok c epoTime station _ _ hb).1]
      · rw [f2] at hb
        simp only [hf] at hb
        simp only [Bool.false_eq_true, ↓reduceIte, Res.ok.injEq] at hb
        subst hb
        simp [hf]
    rw [d7, d6, d5, d4, d3, d2]

theorem Res.andThen_assoc {σ : Type} (r : Res σ) (f g : σ → Res σ) :
    (r.andThen f).andThen g = r.andThen fun s => (f s).andThen g := by
  cases r <;> rfl

theorem tryBlock_split {Ω : Type} (c : Collab Ω) (conf : Conf) (sh : Shared)
    (epoTime : CommonTime) (station staID4 : String) (obsList : List t_satObs) (l : Locals Ω) :
    tryBlock c conf sh epoTime station staID4 obsList l =
      (tryFront c conf sh epoTime station obsList l).andThen
        (tryBack c conf epoTime station staID4) := by
  unfold tryBlock tryFront
  split
  · rfl
  · rw [Res.andThen_assoc]
    rfl

theorem bootstrap_thrown {Ω : Type} (c : Collab Ω) (epoTime : CommonTime) (station : String)
    (l l1 : Locals Ω) (e : Thrown) (h : bootstrap c epoTime station l = .thrown e l1) :
    l1.firstTime = l.firstTime := by
  unfold bootstrap at h
  dsimp only at h
  split at h
  · simp at h
  · simp only [Res.thrown.injEq] at h
    obtain ⟨_, h⟩ := h
    subst h
    rfl
  · split at h
    · simp only [Res.thrown.injEq] at h
      obtain ⟨_, h⟩ := h
      subst h
      rfl
    · split at h
      · simp at h
      · simp at h

theorem tryFront_thrown {Ω : Type} (c : Collab Ω) (conf : Conf) (sh : Shared)
    (epoTime : CommonTime) (station : String) (obsList : List t_satObs) (l l1 : Locals Ω)
    (e : Thrown) (h : tryFront c conf sh epoTime station obsList l = .thrown e l1) :
    l1.firstTime = l.firstTime := by
  unfold tryFront at h
  split at h
  · simp only [Res.thrown.injEq] at h
    obtain ⟨_, h⟩ := h
    subst h
    rfl
  · rcases Res.andThen_eq_thrown h with h1 | ⟨l2, h1, h2⟩
    · have f1 := runList_thrown c station .preprocess _ _ _ _ h1
      simpa [Locals.note] using f1
    · have f2 := (runList_ok c station .preprocess _ _ _ h1).2
      simp only [Locals.note] at f2
      split_ifs at h2 with hf
      · rw [bootstrap_thrown c epoTime station _ _ _ h2, f2]

theorem tryFront_ok {Ω : Type} (c : Collab Ω) (conf : Conf) (sh : Shared)
    (epoTime : CommonTime) (station : String) (obsList : List t_satObs) (l l3 : Locals Ω)
    (h : tryFront c conf sh epoTime station obsList l = .ok l3) :
    l3.firstTime = false := by
  unfold tryFront at h
  split at h
  · simp at h
  · obtain ⟨l2, _, h2⟩ := Res.andThen_eq_ok h
    split_ifs at h2 with hf
    · exact (bootstrap_ok c epoTime station _ _ h2).2
    · simp only [Res.ok.injEq] at h2
      subst h2
      simpa using hf

theorem tryBack_thrown {Ω : Type} (c : Collab Ω) (conf : Conf) (epoTime : CommonTime)
    (station staID4 : String) (l3 l1 : Locals Ω) (e : Thrown)
    (h : tryBack c conf epoTime station staID4 l3 = .thrown e l1) :
    l1.firstTime = l3.firstTime := by
  unfold tryBack at h
  rcases Res.andThen_eq_thrown h with h1 | ⟨l4, h1, h⟩
  · exact runList_thrown c station .predict _ _ _ _ h1
  have f4 := (runList_ok c station .predict _ _ _ h1).2
  rcases Res.andThen_eq_thrown h with h2 | ⟨l5, h2, h⟩
  · rw [tidesAndTropo_thrown c epoTime station staID4 _ _ _ h2, f4]
  have f5 := (tidesAndTropo_ok c epoTime station staID4 _ _ h2).2
  rcases Res.andThen_eq_thrown h with h3 | ⟨l6, h3, h⟩
  · rw [runList_thrown c station .correct _ _ _ _ h3, f5, f4]
  have f6 := (runList_ok c station .correct _ _ _ h3).2
  rw [getDryZTD_thrown c station _ _ _ h, f6, f5, f4]


theorem Res.fault_eq_some {σ : Type} {r : Res σ} {e : Thrown} (h : r.fault = some e) :
    ∃ s, r = .thrown e s := by
  cases r with
  | ok s => simp [Res.fault] at h
  | thrown e1 s =>
    simp only [Res.fault, Option.some.injEq] at h
    exact ⟨s, by rw [h]⟩
  | ub => simp [Res.fault] at h

theorem Run.result_snd {α : Type} {r : Run (α × Jump)} {j : Jump}
    (h : r.result.map Prod.snd = some j) : ∃ a, r = .done (a, j) := by
  cases r with
  | done p =>
    obtain ⟨a, j1⟩ := p
    simp only [Run.result, Option.map_some', Option.some.injEq] at h
    exact ⟨a, by rw [h]⟩
  | propagated e => simp [Run.result] at h
  | undefined => simp [Run.result] at h
  | outOfFuel => simp [Run.result] at h


theorem stationLoop_continue {Ω : Type} (c : Collab Ω) (conf : Conf) (sh : Shared)
    (epoTime : CommonTime) (fuel : Nat) (entry : String × List t_satObs) (rest : StaObsMap)
    (l l1 : Locals Ω) (h : stationBody c conf sh epoTime entry l = .done (l1, .continue_)) :
    stationLoop c conf sh epoTime (fuel + 1) (entry :: rest) l =
      stationLoop c conf sh epoTime fuel (entry :: rest) l1 := by
  rw [stationLoop, h]

theorem wakeUp_open_result {Ω : Type} (c : Collab Ω) (conf : Conf) (fuel : Nat)
    (sh : Shared) (l : Locals Ω) (key : String) (o : t_satObs) (os : List t_satObs)
    (rest : StaObsMap) (hmap : sh.task.m_staObsMap = (key, o :: os) :: rest)
    (hgate : PPPTask.waitForCorr sh.task o._time = true) :
    (wakeUp c conf fuel sh l).result =
      (stationLoop c conf sh o._time fuel sh.task.m_staObsMap
        (takeSnapshot sh ((l.note (.lock .m_allObsMutex)).note .wait))).result.map
        fun l1 => l1.note (.unlock .m_allObsMutex) := by
  unfold wakeUp
  rw [hmap]
  simp only [deferBatch, hmap, hgate]
  simp only [List.length_cons, ne_eq, Nat.add_one_ne_zero, not_false_eq_true, decide_True,
    Bool.not_true, Bool.and_false, Bool.false_eq_true, ↓reduceIte]
  split <;> simp [Run.result, *]

/-! ### The scenarios -/

theorem gate_open_at_103 (m : StaObsMap) :
    PPPTask.waitForCorr (demoShared m).task (atSecond 103) = true := by
  have hm : ¬ ("IGS03" : String) = "" := by decide
  norm_num [PPPTask.waitForCorr, demoShared, gateTask, atSecond, CommonTime.sub,
    CommonTime.getDays, CommonTime.getSecondOfDay, PPPTask.PPPTask, hm]

theorem gate_closed_at_106 (m : StaObsMap) :
    PPPTask.waitForCorr (demoShared m).task (atSecond 106) = false := by
  have hm : ¬ ("IGS03" : String) = "" := by decide
  norm_num [PPPTask.waitForCorr, demoShared, gateTask, atSecond, CommonTime.sub,
    CommonTime.getDays, CommonTime.getSecondOfDay, PPPTask.PPPTask, hm]

theorem tryBlock_tooFewSats (l : Locals Nat) (t : CommonTime) :
    tryBlock (demoCollab tooFewSats) demoConf (demoShared weakThenGood) t
      "ALGO00CAN" ("ALGO00CAN".take 4) (obsOf "ALGO00CAN" 103 3) l =
    .thrown .SVNumException
      (({ l with objs := { l.objs with gRin :=
          { epoch := atSecond 103
            body := (List.range 3).map fun i =>
              (i + 1, fun t => if t = TypeID.P1 then some 20000000 else none) } } }.note
        (.convert "ALGO00CAN")).note (.step "ALGO00CAN" .preprocess .requireObs)) := by
  simp [tryBlock, demoShared, demoConvert, obsOf, List.replicate, runList, preprocessList,
    demoCollab, tooFewSats, Res.andThen, Locals.note, demoConf]

theorem stationLoop_tooFewSats (fuel : Nat) : ∀ l : Locals Nat,
    stationLoop (demoCollab tooFewSats) demoConf (demoShared weakThenGood) (atSecond 103) fuel
      weakThenGood l = .outOfFuel := by
  induction fuel with
  | zero => intro l; rfl
  | succ n ih =>
    intro l
    have hb := stationBody_of_thrown (demoCollab tooFewSats) demoConf (demoShared weakThenGood)
      (atSecond 103) "ALGO" ⟨"ALGO00CAN", atSecond 103⟩ (obsOf "ALGO00CAN" 103 2) l _ _ rfl
      (tryBlock_tooFewSats l (atSecond 103))
    exact (stationLoop_continue _ _ _ _ n _ [("BRUX", obsOf "BRUX00BEL" 103 5)] l _ hb).trans
      (ih _)

/-! ### The await-batch loop -/

/-- C3: on a wake-up with a non-empty station map for which `waitForCorr`
returns false, the pass ends at the `continue`: the locals of `process` are as
before (ephemeris snapshot, processing objects and filter state, first-time
flag, results stream), and all that was done is the wait under the batch mutex
and its release. -/
theorem wakeUp_deferred_changes_nothing {Ω : Type} (c : Collab Ω) (conf : Conf) (fuel : Nat)
    (sh : Shared) (l : Locals Ω) (key : String) (o : t_satObs) (os : List t_satObs)
    (rest : StaObsMap) (hmap : sh.task.m_staObsMap = (key, o :: os) :: rest)
    (hgate : PPPTask.waitForCorr sh.task o._time = false) :
    wakeUp c conf fuel sh l =
      .done { l with done := l.done ++
        [.lock .m_allObsMutex, .wait, .unlock .m_allObsMutex] } := by
  unfold wakeUp
  rw [hmap]
  simp [deferBatch, hmap, hgate, Locals.note]

/-- C3 (witness): the batch of two stations stamped 6 s after the correction is
deferred. -/
theorem wakeUp_deferred_changes_nothing_witness :
    wakeUp (demoCollab noFault) demoConf 8 (demoShared staleBatch) demoLocals =
      .done { demoLocals with done := demoLocals.done ++
        [.lock .m_allObsMutex, .wait, .unlock .m_allObsMutex] } :=
  wakeUp_deferred_changes_nothing (demoCollab noFault) demoConf 8 (demoShared staleBatch)
    demoLocals "ALGO" ⟨"ALGO00CAN", atSecond 106⟩ (obsOf "ALGO00CAN" 106 3)
    [("BRUX", obsOf "BRUX00BEL" 106 5)] rfl (gate_closed_at_106 staleBatch)

/-! ### The station loop -/

/-- C4 (the code at the failing input): in the batch `weakThenGood` the pass for
the first station ends in the `continue` of the `SVNumException` handler, which
skips `++itm`; the loop then runs the same station again, and for no number of
passes does it complete or reach the second station. -/
theorem stationLoop_retries_faulted_station :
    (stationBody (demoCollab tooFewSats) demoConf (demoShared weakThenGood) (atSecond 103)
        ("ALGO", obsOf "ALGO00CAN" 103 3) demoLocals).result.map Prod.snd = some .continue_ ∧
    (∀ fuel, stationLoop (demoCollab tooFewSats) demoConf (demoShared weakThenGood)
        (atSecond 103) (fuel + 1) weakThenGood demoLocals =
      stationLoop (demoCollab tooFewSats) demoConf (demoShared weakThenGood)
        (atSecond 103) fuel weakThenGood atThrowALGO) ∧
    ∀ fuel, stationLoop (demoCollab tooFewSats) demoConf (demoShared weakThenGood)
        (atSecond 103) fuel weakThenGood demoLocals = .outOfFuel := by
  have hb := stationBody_of_thrown (demoCollab tooFewSats) demoConf (demoShared weakThenGood)
    (atSecond 103) "ALGO" ⟨"ALGO00CAN", atSecond 103⟩ (obsOf "ALGO00CAN" 103 2) demoLocals _ _ rfl
    (tryBlock_tooFewSats demoLocals (atSecond 103))
  refine ⟨?_, ?_, fun fuel => stationLoop_tooFewSats fuel demoLocals⟩
  · exact (congrArg (fun r => r.result.map Prod.snd) hb).trans rfl
  · intro fuel
    exact stationLoop_continue _ _ _ _ fuel _ [("BRUX", obsOf "BRUX00BEL" 103 5)] _ _ hb

/-- C5: an exception of any type thrown inside the `try` block of a station
(conversion, preprocess, bootstrap, predict, tides, correct) is taken by one of
the four handlers, the pass ends in `continue` with the state at the throw, and
no run of the station loop or of the await-batch loop ends with an exception
leaving `process`. -/
theorem process_catches_every_exception {Ω : Type} (c : Collab Ω) (conf : Conf) (sh : Shared)
    (epoTime : CommonTime) (key : String) (o : t_satObs) (os : List t_satObs)
    (l l1 : Locals Ω) (e : Thrown) (hvalid : c.isValid (o._staID.take 4) = true)
    (h : tryBlock c conf sh epoTime o._staID (o._staID.take 4) (o :: os) l = .thrown e l1) :
    (∃ clause, selectClause e = some clause) ∧
    stationBody c conf sh epoTime (key, o :: os) l = .done (l1, .continue_) ∧
    (∀ (fuel : Nat) (m : StaObsMap) (l0 : Locals Ω) (e0 : Thrown),
      stationLoop c conf sh epoTime fuel m l0 ≠ .propagated e0) ∧
    (∀ (fuel : Nat) (wakeUps : List Shared) (l0 : Locals Ω) (e0 : Thrown),
      processLoop c conf fuel wakeUps l0 ≠ .propagated e0) :=
  ⟨selectClause_isSome e, stationBody_of_thrown c conf sh epoTime key o os l l1 e hvalid h,
    fun fuel m l0 e0 => stationLoop_not_propagated c conf sh epoTime e0 fuel m l0,
    fun fuel wakeUps l0 e0 => processLoop_not_propagated c conf fuel wakeUps l0 e0⟩

/-- C5 (witness): the `SVNumException` of the three-satellite station. -/
theorem process_catches_every_exception_witness :
    (∃ clause, selectClause .SVNumException = some clause) ∧
    stationBody (demoCollab tooFewSats) demoConf (demoShared weakThenGood) (atSecond 103)
      ("ALGO", ⟨"ALGO00CAN", atSecond 103⟩ :: obsOf "ALGO00CAN" 103 2) demoLocals =
        .done (atThrowALGO, .continue_) ∧
    (∀ (fuel : Nat) (m : StaObsMap) (l0 : Locals Nat) (e0 : Thrown),
      stationLoop (demoCollab tooFewSats) demoConf (demoShared weakThenGood) (atSecond 103)
        fuel m l0 ≠ .propagated e0) ∧
    (∀ (fuel : Nat) (wakeUps : List Shared) (l0 : Locals Nat) (e0 : Thrown),
      processLoop (demoCollab tooFewSats) demoConf fuel wakeUps l0 ≠ .propagated e0) :=
  process_catches_every_exception (demoCollab tooFewSats) demoConf (demoShared weakThenGood)
    (atSecond 103) "ALGO" ⟨"ALGO00CAN", atSecond 103⟩ (obsOf "ALGO00CAN" 103 2) demoLocals
    atThrowALGO .SVNumException rfl (tryBlock_tooFewSats demoLocals (atSecond 103))

set_option maxRecDepth 100000 in
/-- C6 (the code at the failing input): there is one filter state for all
stations. After the pass for the first station of `twoStations` the first-time
flag is cleared, the internal state of the objects has advanced and the receiver
position is that station's bootstrap solution, and this is the state the second
station starts from: processed after the first, the second station ends with
the first station's position; processed alone, with its own. -/
theorem station_state_is_shared :
    (demoLocals.firstTime, demoLocals.objs.internal, demoLocals.objs.rxPosition) =
      (true, 0, ⟨0, 0, 0⟩) ∧
    (stationLoop (demoCollab noFault) demoConf (demoShared twoStations) (atSecond 103) 1
      [entryALGO] demoLocals).result.map
        (fun l => (l.firstTime, l.objs.internal, l.objs.rxPosition)) =
      some (false, 24, ⟨4, 2, 3⟩) ∧
    (stationLoop (demoCollab noFault) demoConf (demoShared twoStations) (atSecond 103) 2
      twoStations demoLocals).result.map
        (fun l => (l.objs.internal, l.objs.rxPosition)) = some (48, ⟨4, 2, 3⟩) ∧
    (stationLoop (demoCollab noFault) demoConf (demoShared twoStations) (atSecond 103) 1
      [entryBRUX] demoLocals).result.map
        (fun l => (l.objs.internal, l.objs.rxPosition)) = some (24, ⟨5, 2, 3⟩) := by
  refine ⟨?_, ?_, ?_, ?_⟩ <;> decide

set_option maxRecDepth 100000 in
/-- C7 (the code at the failing input): in a wake-up with the batch
`twoStations`, both stations on their first epoch, the bootstrap runs for the
first station only; the second station goes through its predict list without a
bootstrap and the receiver position stays the first station's solution. -/
theorem only_first_station_is_bootstrapped :
    (wakeUp (demoCollab noFault) demoConf 2 (demoShared twoStations) demoLocals).result.map
      (fun l => (l.done.contains (.bootstrap "ALGO00CAN"),
        l.done.contains (.bootstrap "BRUX00BEL"),
        l.done.contains (.step "BRUX00BEL" .preprocess .requireObs),
        l.done.contains (.step "BRUX00BEL" .predict .pppPredictSolver),
        l.objs.rxPosition)) =
      some (true, false, true, true, ⟨4, 2, 3⟩) := by
  rw [wakeUp_open_result (demoCollab noFault) demoConf 2 (demoShared twoStations) demoLocals
    "ALGO" ⟨"ALGO00CAN", atSecond 103⟩ (obsOf "ALGO00CAN" 103 3)
    [("BRUX", obsOf "BRUX00BEL" 103 5)] rfl (gate_open_at_103 _)]
  decide

set_option maxRecDepth 100000 in
/-- C8 (counterexample): with `filterCycles` equal to one, the pass for a station
whose stages all complete reaches `++itm` without writing a record. -/
theorem no_record_when_filterCycles_positive :
    (stationBody (demoCollab noFault) cyclesConf (demoShared [entryALGO]) (atSecond 103)
      entryALGO demoLocals).result.map
        (fun p => (p.2, p.1.done.contains (.printSolution "ALGO00CAN"),
          p.1.done.contains (.step "ALGO00CAN" .correct .pppCorrectSolver), p.1.outfile)) =
      some (.fallThrough, false, true, []) := by
  decide

/-- C8 (amended): a pass of the station loop that handles a station-epoch
without a fault has run, exactly once each and in this order, the conversion,
the steps of the preprocess list, the steps of the predict list, the tides and
tropospheric set-up, the steps of the correct list, the dry delay, the optional
model print-out, and the emission of the record only when `filterCycles < 1`;
the bootstrap, in a pass in which it runs, runs once, after the last preprocess
step and before the first predict step. -/
theorem station_epoch_stage_order {Ω : Type} (c : Collab Ω) (conf : Conf) (sh : Shared)
    (epoTime : CommonTime) (key : String) (o : t_satObs) (os : List t_satObs)
    (l l1 : Locals Ω)
    (h : stationBody c conf sh epoTime (key, o :: os) l = .done (l1, .fallThrough)) :
    ∃ boot : List Event, (boot = [] ∨ boot = [Event.bootstrap o._staID]) ∧
    l1.done = l.done ++ [Event.convert o._staID] ++
      (preprocessList conf).map (Event.step o._staID .preprocess) ++
      boot ++
      predictList.map (Event.step o._staID .predict) ++
      [Event.tides o._staID, Event.tropo o._staID] ++
      (correctList conf).map (Event.step o._staID .correct) ++
      [Event.dryDelay o._staID] ++
      (if conf.printModel then [Event.printModel o._staID] else []) ++
      (if conf.filterCycles < 1 then [Event.printSolution o._staID] else []) := by
  obtain ⟨l2, htry, hl1⟩ := stationBody_fallThrough c conf sh epoTime key o os l l1 h
  refine ⟨if l.firstTime then [Event.bootstrap o._staID] else [], ?_, ?_⟩
  · cases l.firstTime
    · exact Or.inl rfl
    · exact Or.inr rfl
  · rw [hl1, afterTry_done, tryBlock_ok_done c conf sh epoTime _ _ _ l l2 htry]

set_option maxRecDepth 100000 in
/-- C8 (witness): the four-satellite station with the forwards-only filter. -/
theorem station_epoch_stage_order_witness :
    ∃ l1 : Locals Nat,
    stationBody (demoCollab noFault) demoConf (demoShared [entryALGO]) (atSecond 103)
      ("ALGO", ⟨"ALGO00CAN", atSecond 103⟩ :: obsOf "ALGO00CAN" 103 3) demoLocals =
        .done (l1, .fallThrough) ∧
    ∃ boot : List Event, (boot = [] ∨ boot = [Event.bootstrap "ALGO00CAN"]) ∧
    l1.done = demoLocals.done ++ [Event.convert "ALGO00CAN"] ++
      (preprocessList demoConf).map (Event.step "ALGO00CAN" .preprocess) ++
      boot ++
      predictList.map (Event.step "ALGO00CAN" .predict) ++
      [Event.tides "ALGO00CAN", Event.tropo "ALGO00CAN"] ++
      (correctList demoConf).map (Event.step "ALGO00CAN" .correct) ++
      [Event.dryDelay "ALGO00CAN"] ++
      (if demoConf.printModel then [Event.printModel "ALGO00CAN"] else []) ++
      (if demoConf.filterCycles < 1 then [Event.printSolution "ALGO00CAN"] else []) :=
  (Run.result_snd (by decide :
      (stationBody (demoCollab noFault) demoConf (demoShared [entryALGO]) (atSecond 103)
        ("ALGO", ⟨"ALGO00CAN", atSecond 103⟩ :: obsOf "ALGO00CAN" 103 3)
        demoLocals).result.map Prod.snd = some .fallThrough)).elim fun l1 h =>
    ⟨l1, h, station_epoch_stage_order (demoCollab noFault) demoConf (demoShared [entryALGO])
      (atSecond 103) "ALGO" ⟨"ALGO00CAN", atSecond 103⟩ (obsOf "ALGO00CAN" 103 3) demoLocals
      l1 h⟩

/-! ### The record of the results stream -/

/-- C9: `printSolution` appends exactly one line to the stream, of exactly
eleven fields: year, day of year, second of day, the three coordinates (`dLat`,
`dLon`, `dH` when `useNEU` is true, otherwise `dx`, `dy`, `dz`), the zenith
tropospheric delay `wetMap + 0.1 + dryTropo`, the satellite count, the
convergence flag, GDOP and PDOP. -/
theorem printSolution_record (toYDS : CommonTime → YDSTime) (outfile : ofstream)
    (solver : SolverLMS) (time : CommonTime) (cDOP : ComputeDOP) (useNEU : Bool)
    (numSats : Int) (dryTropo : ℚ) :
    ∃ line : List Field,
      PPPTask.printSolution toYDS outfile solver time cDOP useNEU numSats dryTropo =
        outfile ++ [line] ∧
      line.length = 11 ∧
      line =
        [Field.int (toYDS time).year, Field.int (toYDS time).doy, Field.real (toYDS time).sod,
         Field.real (solver.getSolution (if useNEU then TypeID.dLat else TypeID.dx)),
         Field.real (solver.getSolution (if useNEU then TypeID.dLon else TypeID.dy)),
         Field.real (solver.getSolution (if useNEU then TypeID.dH else TypeID.dz)),
         Field.real (solver.getSolution TypeID.wetMap + 0.1 + dryTropo),
         Field.int numSats, Field.flag solver.getConverged,
         Field.real cDOP.getGDOP, Field.real cDOP.getPDOP] := by
  cases useNEU <;> exact ⟨_, rfl, rfl, rfl⟩

/-! ### The state after an abandoned station-epoch -/

set_option maxRecDepth 100000 in
/-- C10 (counterexample): the six-satellite station starts its first epoch with
the first-time flag set, position zero and internal state zero; the correct
solver throws after the bootstrap and the predict list have run, and the pass
ends in `continue` with the flag cleared, the bootstrap position in the filter
and the internal state advanced by the steps that ran. -/
theorem fault_after_bootstrap_keeps_changes :
    (demoLocals.firstTime, demoLocals.objs.internal, demoLocals.objs.rxPosition) =
      (true, 0, ⟨0, 0, 0⟩) ∧
    (tryBlock (demoCollab singularUpdate) demoConf (demoShared [entryCEDU]) (atSecond 103)
      "CEDU00AUS" ("CEDU00AUS".take 4) entryCEDU.2 demoLocals).fault = some .Exception ∧
    (stationBody (demoCollab singularUpdate) demoConf (demoShared [entryCEDU]) (atSecond 103)
      entryCEDU demoLocals).result.map
        (fun p => (p.2, p.1.firstTime, p.1.objs.internal, p.1.objs.rxPosition)) =
      some (.continue_, false, 23, ⟨6, 2, 3⟩) := by
  refine ⟨?_, ?_, ?_⟩ <;> decide

/-- C10 (amended): when a stage raises a fault, the pass ends in `continue` with
the state at the throw: nothing is restored. Either the fault was raised before
the bootstrap completed (conversion, preprocess list, bootstrap) and the
first-time flag is as it was before the epoch, or that first part completed and
a later stage raised the fault, and the first-time flag is cleared. -/
theorem abandoned_epoch_keeps_state_at_throw {Ω : Type} (c : Collab Ω) (conf : Conf)
    (sh : Shared) (epoTime : CommonTime) (key : String) (o : t_satObs) (os : List t_satObs)
    (l l1 : Locals Ω) (e : Thrown) (hvalid : c.isValid (o._staID.take 4) = true)
    (h : tryBlock c conf sh epoTime o._staID (o._staID.take 4) (o :: os) l = .thrown e l1) :
    stationBody c conf sh epoTime (key, o :: os) l = .done (l1, .continue_) ∧
    ((tryFront c conf sh epoTime o._staID (o :: os) l = .thrown e l1 ∧
        l1.firstTime = l.firstTime) ∨
      (∃ l3, tryFront c conf sh epoTime o._staID (o :: os) l = .ok l3 ∧
        tryBack c conf epoTime o._staID (o._staID.take 4) l3 = .thrown e l1 ∧
        l1.firstTime = false)) := by
  refine ⟨stationBody_of_thrown c conf sh epoTime key o os l l1 e hvalid h, ?_⟩
  rw [tryBlock_split] at h
  rcases Res.andThen_eq_thrown h with h1 | ⟨l3, h1, h2⟩
  · exact Or.inl ⟨h1, tryFront_thrown c conf sh epoTime _ _ _ _ _ h1⟩
  · refine Or.inr ⟨l3, h1, h2, ?_⟩
    rw [tryBack_thrown c conf epoTime _ _ _ _ _ h2]
    exact tryFront_ok c conf sh epoTime _ _ _ _ h1

set_option maxRecDepth 100000 in
/-- C10 (witness): the six-satellite station whose correct solver throws. -/
theorem abandoned_epoch_keeps_state_at_throw_witness :
    ∃ l1 : Locals Nat,
    stationBody (demoCollab singularUpdate) demoConf (demoShared [entryCEDU]) (atSecond 103)
        ("CEDU", ⟨"CEDU00AUS", atSecond 103⟩ :: obsOf "CEDU00AUS" 103 5) demoLocals =
      .done (l1, .continue_) ∧
    ((tryFront (demoCollab singularUpdate) demoConf (demoShared [entryCEDU]) (atSecond 103)
        "CEDU00AUS" (⟨"CEDU00AUS", atSecond 103⟩ :: obsOf "CEDU00AUS" 103 5) demoLocals =
          .thrown .Exception l1 ∧ l1.firstTime = demoLocals.firstTime) ∨
      (∃ l3, tryFront (demoCollab singularUpdate) demoConf (demoShared [entryCEDU]) (atSecond 103)
          "CEDU00AUS" (⟨"CEDU00AUS", atSecond 103⟩ :: obsOf "CEDU00AUS" 103 5) demoLocals = .ok l3 ∧
        tryBack (demoCollab singularUpdate) demoConf (atSecond 103) "CEDU00AUS"
          ("CEDU00AUS".take 4) l3 = .thrown .Exception l1 ∧
        l1.firstTime = false)) :=
  (Res.fault_eq_some (by decide :
      (tryBlock (demoCollab singularUpdate) demoConf (demoShared [entryCEDU]) (atSecond 103)
        "CEDU00AUS" ("CEDU00AUS".take 4) (⟨"CEDU00AUS", atSecond 103⟩ :: obsOf "CEDU00AUS" 103 5)
        demoLocals).fault = some .Exception)).elim fun l1 h =>
    ⟨l1, abandoned_epoch_keeps_state_at_throw (demoCollab singularUpdate) demoConf
      (demoShared [entryCEDU]) (atSecond 103) "CEDU" ⟨"CEDU00AUS", atSecond 103⟩
      (obsOf "CEDU00AUS" 103 5) demoLocals l1 .Exception rfl h⟩

/-! ### The correction gate, exactly -/

/-- C16: `waitForCorr` returns true if and only if real-time mode is on, the
correction mount is not empty, the last clock-correction time has a non-zero
`getDays()` and a non-zero `getSecondOfDay()`, and `dt = epoTime -
m_lastClkCorrTime` satisfies `1.0 < dt < m_dCorrWaitTime`, both bounds strict;
so an age of at most 1 s and an age equal to the maximum wait are deferred. -/
theorem waitForCorr_iff (self : PPPTask) (epoTime : CommonTime) :
    (PPPTask.waitForCorr self epoTime = true ↔
      (self.m_bRealTime = true ∧ self.m_sCorrMount ≠ "" ∧
        self.m_lastClkCorrTime.getDays ≠ 0 ∧ self.m_lastClkCorrTime.getSecondOfDay ≠ 0 ∧
        1 < CommonTime.sub epoTime self.m_lastClkCorrTime ∧
        CommonTime.sub epoTime self.m_lastClkCorrTime < self.m_dCorrWaitTime)) ∧
    (CommonTime.sub epoTime self.m_lastClkCorrTime ≤ 1 →
      PPPTask.waitForCorr self epoTime = false) ∧
    (CommonTime.sub epoTime self.m_lastClkCorrTime = self.m_dCorrWaitTime →
      PPPTask.waitForCorr self epoTime = false) := by
  have key : PPPTask.waitForCorr self epoTime = true ↔
      (self.m_bRealTime = true ∧ self.m_sCorrMount ≠ "" ∧
        self.m_lastClkCorrTime.getDays ≠ 0 ∧ self.m_lastClkCorrTime.getSecondOfDay ≠ 0 ∧
        1 < CommonTime.sub epoTime self.m_lastClkCorrTime ∧
        CommonTime.sub epoTime self.m_lastClkCorrTime < self.m_dCorrWaitTime) := by
    unfold PPPTask.waitForCorr
    dsimp only
    split_ifs with h1 h2 h3
    · simp only [Bool.false_eq_true, false_iff]
      rintro ⟨a, b, -⟩
      rcases h1 with h1 | h1
      · rw [h1] at a
        exact Bool.noConfusion a
      · exact b h1
    · simp only [Bool.false_eq_true, false_iff]
      rintro ⟨-, -, a, b, -⟩
      rcases h2 with h2 | h2
      · exact a h2
      · exact b h2
    · push_neg at h1 h2
      simp only [true_iff]
      exact ⟨by simpa using h1.1, h1.2, h2.1, h2.2, h3.1, h3.2⟩
    · simp only [Bool.false_eq_true, false_iff]
      rintro ⟨-, -, -, -, a, b⟩
      exact h3 ⟨a, b⟩
  refine ⟨key, ?_, ?_⟩
  · intro hle
    cases hw : PPPTask.waitForCorr self epoTime
    · rfl
    · have := (key.mp hw).2.2.2.2.1
      exact absurd hle (not_le.mpr this)
  · intro heq
    cases hw : PPPTask.waitForCorr self epoTime
    · rfl
    · have := (key.mp hw).2.2.2.2.2
      rw [heq] at this
      exact absurd this (lt_irrefl _)

/-! ### The processing lists -/

/-- C18: for every configuration the required-observables check is the first
preprocess step, the basic modeller is the first and the solver the last step of
the predict list and of the correct list; `filterCode` only decides whether the
code filter stands right after the required-observables check, `filterPC` only
whether the PC filter stands right before the prefit-residual step, and without
these two filters the lists are the same for every configuration. -/
theorem processing_lists_fixed_order (conf : Conf) :
    (preprocessList conf).head? = some .requireObs ∧
    predictList.head? = some .basic ∧ predictList.getLast? = some .pppPredictSolver ∧
    (correctList conf).head? = some .basic ∧
    (correctList conf).getLast? = some .pppCorrectSolver ∧
    preprocessList conf =
      .requireObs :: ((if conf.filterCode then [ProcObj.pObsFilter] else []) ++
        [.linear1, .markCSLI, .markCSMW, .markArc]) ∧
    (preprocessList conf).filter (fun obj => decide (obj ≠ .pObsFilter)) =
      [.requireObs, .linear1, .markCSLI, .markCSMW, .markArc] ∧
    (preprocessList conf).count .pObsFilter = (if conf.filterCode then 1 else 0) ∧
    correctList conf =
      [.basic, .elevWeights, .grDelay, .svPcenter, .corr, .windup, .computeTropo, .linear2,
        .phaseAlignL1, .phaseAlignL2, .linear3] ++
        ((if conf.filterPC then [ProcObj.pcFilter] else []) ++
          .linear4 :: [.cDOP, .pppCorrectSolver]) ∧
    (correctList conf).filter (fun obj => decide (obj ≠ .pcFilter)) =
      [.basic, .elevWeights, .grDelay, .svPcenter, .corr, .windup, .computeTropo, .linear2,
        .phaseAlignL1, .phaseAlignL2, .linear3, .linear4, .cDOP, .pppCorrectSolver] ∧
    (correctList conf).count .pcFilter = (if conf.filterPC then 1 else 0) := by
  cases hc : conf.filterCode <;> cases hp : conf.filterPC <;>
    simp [preprocessList, predictList, correctList, hc, hp]

/-! ### What the statements of a pass leave alone -/

theorem Locals.Extends.refl {Ω : Type} (l : Locals Ω) : l.Extends l :=
  ⟨rfl, rfl, rfl, [], by simp, by simp⟩

theorem Locals.Extends.trans {Ω : Type} {l l1 l2 : Locals Ω} (h1 : l.Extends l1)
    (h2 : l1.Extends l2) : l.Extends l2 := by
  obtain ⟨a1, b1, c1, evs1, d1, e1⟩ := h1
  obtain ⟨a2, b2, c2, evs2, d2, e2⟩ := h2
  refine ⟨a2.trans a1, b2.trans b1, c2.trans c1, evs1 ++ evs2, ?_, ?_⟩
  · rw [d2, d1, List.append_assoc]
  · intro ev hev
    rcases List.mem_append.mp hev with h | h
    · exact e1 ev h
    · exact e2 ev h

theorem Locals.Extends.step {Ω : Type} (l : Locals Ω) (o : Objects Ω) (ev : Event)
    (hev : ev.inTry = true) : l.Extends ({ l with objs := o }.note ev) :=
  ⟨rfl, rfl, rfl, [ev], rfl, by simpa using hev⟩

theorem Locals.Extends.note {Ω : Type} (l : Locals Ω) (ev : Event)
    (hev : ev.inTry = true) : l.Extends (l.note ev) :=
  ⟨rfl, rfl, rfl, [ev], rfl, by simpa using hev⟩

theorem Res.Holds.imp {σ : Type} {P Q : σ → Prop} {r : Res σ} (h : r.Holds P)
    (hpq : ∀ s, P s → Q s) : r.Holds Q := by
  cases r with
  | ok s => exact hpq s h
  | thrown e s => exact hpq s h
  | ub => trivial

theorem Res.Holds.andThen {Ω : Type} {l : Locals Ω} {r : Res (Locals Ω)}
    {f : Locals Ω → Res (Locals Ω)} (hr : r.Holds l.Extends)
    (hf : ∀ s, (f s).Holds s.Extends) : (r.andThen f).Holds l.Extends := by
  cases r with
  | ok s => exact (hf s).imp fun s1 h1 => Locals.Extends.trans hr h1
  | thrown e s => exact hr
  | ub => trivial

theorem runList_extends {Ω : Type} (c : Collab Ω) (station : String) (stage : Stage)
    (list : List ProcObj) : ∀ l : Locals Ω, (runList c station stage list l).Holds l.Extends := by
  induction list with
  | nil => intro l; exact Locals.Extends.refl l
  | cons obj rest ih =>
    intro l
    unfold runList
    split
    · rename_i o _
      exact (ih _).imp fun s hs =>
        (Locals.Extends.step l o (.step station stage obj) rfl).trans hs
    · rename_i e o _
      exact Locals.Extends.step l o (.step station stage obj) rfl
    · trivial

theorem bootstrap_extends {Ω : Type} (c : Collab Ω) (epoTime : CommonTime) (station : String)
    (l : Locals Ω) : (bootstrap c epoTime station l).Holds l.Extends := by
  unfold bootstrap
  dsimp only
  split
  · trivial
  · exact ⟨rfl, rfl, rfl, [.bootstrap station], rfl, by simp [Event.inTry]⟩
  · split
    · exact ⟨rfl, rfl, rfl, [.bootstrap station], rfl, by simp [Event.inTry]⟩
    · split
      · exact ⟨rfl, rfl, rfl, [.bootstrap station], rfl, by simp [Event.inTry]⟩
      · trivial

theorem tidesAndTropo_extends {Ω : Type} (c : Collab Ω) (epoTime : CommonTime)
    (station staID4 : String) (l : Locals Ω) :
    (tidesAndTropo c epoTime station staID4 l).Holds l.Extends := by
  unfold tidesAndTropo
  dsimp only
  split
  · exact Locals.Extends.note l _ rfl
  · split
    · exact Locals.Extends.note l _ rfl
    · split
      · exact Locals.Extends.note l _ rfl
      · exact ⟨rfl, rfl, rfl, [.tides station, .tropo station], by simp [Locals.note],
          by simp [Event.inTry]⟩

theorem getDryZTD_extends {Ω : Type} (c : Collab Ω) (station : String) (l : Locals Ω) :
    (getDryZTD c station l).Holds l.Extends := by
  unfold getDryZTD
  split
  · exact Locals.Extends.note l _ rfl
  · exact ⟨rfl, rfl, rfl, [.dryDelay station], rfl, by simp [Event.inTry]⟩

theorem tryBlock_extends {Ω : Type} (c : Collab Ω) (conf : Conf) (sh : Shared)
    (epoTime : CommonTime) (station staID4 : String) (obsList : List t_satObs) (l : Locals Ω) :
    (tryBlock c conf sh epoTime station staID4 obsList l).Holds l.Extends := by
  unfold tryBlock
  split
  · exact Locals.Extends.note l _ rfl
  · rename_i g _
    have h0 : l.Extends ({ l with objs := { l.objs with gRin := g } }.note (.convert station)) :=
      Locals.Extends.step l _ (.convert station) rfl
    refine Res.Holds.imp ?_ fun s hs => h0.trans hs
    refine Res.Holds.andThen (runList_extends c station .preprocess _ _) fun l2 => ?_
    refine Res.Holds.andThen ?_ fun l3 => ?_
    · split_ifs
      · exact bootstrap_extends c epoTime station l2
      · exact Locals.Extends.refl l2
    refine Res.Holds.andThen (runList_extends c station .predict _ _) fun l4 => ?_
    refine Res.Holds.andThen (tidesAndTropo_extends c epoTime station staID4 l4) fun l5 => ?_
    exact Res.Holds.andThen (runList_extends c station .correct _ _) fun l6 =>
      getDryZTD_extends c station l6

theorem Event.inStation_of_inTry {ev : Event} (h : ev.inTry = true) : ev.inStation = true := by
  cases ev <;> simp_all [Event.inTry, Event.inStation]

theorem stationBody_continue {Ω : Type} (c : Collab Ω) (conf : Conf) (sh : Shared)
    (epoTime : CommonTime) (key : String) (o : t_satObs) (os : List t_satObs)
    (l l1 : Locals Ω)
    (h : stationBody c conf sh epoTime (key, o :: os) l = .done (l1, .continue_)) :
    (c.isValid (o._staID.take 4) = false ∧ l1 = l) ∨
      (c.isValid (o._staID.take 4) = true ∧ ∃ e,
        tryBlock c conf sh epoTime o._staID (o._staID.take 4) (o :: os) l = .thrown e l1) := by
  unfold stationBody at h
  dsimp only at h
  split_ifs at h with hv
  · simp only [Run.done.injEq, Prod.mk.injEq, and_true] at h
    exact Or.inl ⟨hv, h.symm⟩
  · have hv1 : c.isValid (o._staID.take 4) = true := by simpa using hv
    split at h
    · simp at h
    · rename_i e1 l2 htry
      obtain ⟨clause, hc⟩ := selectClause_isSome e1
      rw [hc] at h
      dsimp only at h
      rw [clause_body_continue] at h
      simp only [Run.done.injEq, Prod.mk.injEq, and_true] at h
      subst h
      exact Or.inr ⟨hv1, e1, htry⟩
    · simp at h

theorem afterTry_outfile {Ω : Type} (c : Collab Ω) (conf : Conf) (epoTime : CommonTime)
    (station : String) (l : Locals Ω) :
    (afterTry c conf epoTime station l).outfile =
      (if conf.filterCycles < 1 then
        PPPTask.printSolution c.toYDS l.outfile (c.pppCorrectSolver l.objs.internal) epoTime
          (c.cDOP l.objs.internal) conf.USENEU l.objs.gRin.numSats l.drytropo
      else l.outfile) ∧
    (afterTry c conf epoTime station l).ephStore = l.ephStore := by
  unfold afterTry
  by_cases hp : conf.printModel = true <;> by_cases hc : conf.filterCycles < 1 <;>
    simp [hp, hc, Locals.note]

theorem tryBlock_thrown_extends {Ω : Type} (c : Collab Ω) (conf : Conf) (sh : Shared)
    (epoTime : CommonTime) (station staID4 : String) (obsList : List t_satObs)
    (l l1 : Locals Ω) (e : Thrown)
    (h : tryBlock c conf sh epoTime station staID4 obsList l = .thrown e l1) : l.Extends l1 := by
  have := tryBlock_extends c conf sh epoTime station staID4 obsList l
  rw [h] at this
  exact this

theorem tryBlock_ok_extends {Ω : Type} (c : Collab Ω) (conf : Conf) (sh : Shared)
    (epoTime : CommonTime) (station staID4 : String) (obsList : List t_satObs)
    (l l1 : Locals Ω)
    (h : tryBlock c conf sh epoTime station staID4 obsList l = .ok l1) : l.Extends l1 := by
  have := tryBlock_extends c conf sh epoTime station staID4 obsList l
  rw [h] at this
  exact this

/-! ### Records of the results stream -/

theorem printSolution_appends_line (toYDS : CommonTime → YDSTime) (outfile : ofstream)
    (solver : SolverLMS) (time : CommonTime) (cDOP : ComputeDOP) (useNEU : Bool)
    (numSats : Int) (dryTropo : ℚ) :
    ∃ line : List Field, line.length = 11 ∧
      PPPTask.printSolution toYDS outfile solver time cDOP useNEU numSats dryTropo =
        outfile ++ [line] := by
  cases useNEU
  · exact ⟨[_, _, _, _, _, _, _, _, _, _, _], rfl, rfl⟩
  · exact ⟨[_, _, _, _, _, _, _, _, _, _, _], rfl, rfl⟩

set_option maxRecDepth 100000 in
/-- C19 (counterexample): with `filterCycles` equal to one, both stations of the
batch `twoStations` complete all their stages and the results stream is still
empty after the station loop. -/
theorem no_records_for_batch_when_filterCycles_positive :
    (stationLoop (demoCollab noFault) cyclesConf (demoShared twoStations) (atSecond 103) 2
      twoStations demoLocals).result.map
        (fun l => (l.done.contains (.step "ALGO00CAN" .correct .pppCorrectSolver),
          l.done.contains (.step "BRUX00BEL" .correct .pppCorrectSolver),
          l.done.contains (.dryDelay "BRUX00BEL"), l.outfile)) =
      some (true, true, true, []) := by
  decide

/-- C19 (amended): a pass of the station loop whose stages complete without a
fault writes exactly one record, of eleven fields, when `filterCycles < 1`, and
none when `filterCycles` is one or more; a pass that ends in `continue` (a fault
was raised, or the station has no BLQ data) writes none. -/
theorem records_written_by_a_pass {Ω : Type} (c : Collab Ω) (conf : Conf) (sh : Shared)
    (epoTime : CommonTime) (key : String) (o : t_satObs) (os : List t_satObs)
    (l l1 : Locals Ω) (j : Jump)
    (h : stationBody c conf sh epoTime (key, o :: os) l = .done (l1, j)) :
    (j = .fallThrough → conf.filterCycles < 1 →
      ∃ line : List Field, line.length = 11 ∧ l1.outfile = l.outfile ++ [line]) ∧
    (j = .fallThrough → ¬ conf.filterCycles < 1 → l1.outfile = l.outfile) ∧
    (j = .continue_ → l1.outfile = l.outfile) := by
  refine ⟨?_, ?_, ?_⟩
  · intro hj hc
    subst hj
    obtain ⟨l2, htry, hl1⟩ := stationBody_fallThrough c conf sh epoTime key o os l l1 h
    have hx := tryBlock_ok_extends c conf sh epoTime _ _ _ l l2 htry
    rw [hl1, (afterTry_outfile c conf epoTime o._staID l2).1, if_pos hc, hx.2.2.1]
    exact printSolution_appends_line _ _ _ _ _ _ _ _
  · intro hj hc
    subst hj
    obtain ⟨l2, htry, hl1⟩ := stationBody_fallThrough c conf sh epoTime key o os l l1 h
    have hx := tryBlock_ok_extends c conf sh epoTime _ _ _ l l2 htry
    rw [hl1, (afterTry_outfile c conf epoTime o._staID l2).1, if_neg hc, hx.2.2.1]
  · intro hj
    subst hj
    rcases stationBody_continue c conf sh epoTime key o os l l1 h with ⟨_, h1⟩ | ⟨_, e, h1⟩
    · rw [h1]
    · exact (tryBlock_thrown_extends c conf sh epoTime _ _ _ l l1 e h1).2.2.1

set_option maxRecDepth 100000 in
/-- C19 (witness): the four-satellite station with the forwards-only filter. -/
theorem records_written_by_a_pass_witness :
    ∃ l1 : Locals Nat,
    stationBody (demoCollab noFault) demoConf (demoShared [entryALGO]) (atSecond 103)
      ("ALGO", ⟨"ALGO00CAN", atSecond 103⟩ :: obsOf "ALGO00CAN" 103 3) demoLocals =
        .done (l1, .fallThrough) ∧
    ((Jump.fallThrough = .fallThrough → demoConf.filterCycles < 1 →
      ∃ line : List Field, line.length = 11 ∧ l1.outfile = demoLocals.outfile ++ [line]) ∧
    (Jump.fallThrough = .fallThrough → ¬ demoConf.filterCycles < 1 →
      l1.outfile = demoLocals.outfile) ∧
    (Jump.fallThrough = .continue_ → l1.outfile = demoLocals.outfile)) :=
  (Run.result_snd (by decide :
      (stationBody (demoCollab noFault) demoConf (demoShared [entryALGO]) (atSecond 103)
        ("ALGO", ⟨"ALGO00CAN", atSecond 103⟩ :: obsOf "ALGO00CAN" 103 3)
        demoLocals).result.map Prod.snd = some .fallThrough)).elim fun l1 h =>
    ⟨l1, h, records_written_by_a_pass (demoCollab noFault) demoConf (demoShared [entryALGO])
      (atSecond 103) "ALGO" ⟨"ALGO00CAN", atSecond 103⟩ (obsOf "ALGO00CAN" 103 3) demoLocals
      l1 .fallThrough h⟩

set_option maxRecDepth 100000 in
/-- C11 (counterexample): the correct solver throws `SVNumException` for the
three-satellite station; the forwards-only filter is configured, the pass ends
in the `continue` of the handler, no record is emitted and the results stream
stays empty. -/
theorem no_record_after_SVNumException :
    demoConf.filterCycles = 0 ∧
    (tryBlock (demoCollab solverTooFew) demoConf (demoShared [entryDAEJ]) (atSecond 103)
      "DAEJ00KOR" ("DAEJ00KOR".take 4) entryDAEJ.2 demoLocals).fault = some .SVNumException ∧
    (stationBody (demoCollab solverTooFew) demoConf (demoShared [entryDAEJ]) (atSecond 103)
      entryDAEJ demoLocals).result.map
        (fun p => (p.2, p.1.done.contains (.step "DAEJ00KOR" .correct .pppCorrectSolver),
          p.1.done.contains (.printSolution "DAEJ00KOR"), p.1.outfile)) =
      some (.continue_, true, false, []) := by
  refine ⟨rfl, ?_, ?_⟩ <;> decide

/-- C11 (amended): when an `SVNumException` is raised while a station-epoch is
processed, the `SVNumException` handler takes it and the pass ends in
`continue` before the print-out: that pass emits no record, the results stream
is as before, and what the pass did are events of the `try` block only. -/
theorem SVNumException_ends_pass_without_record {Ω : Type} (c : Collab Ω) (conf : Conf)
    (sh : Shared) (epoTime : CommonTime) (key : String) (o : t_satObs) (os : List t_satObs)
    (l l1 : Locals Ω) (hvalid : c.isValid (o._staID.take 4) = true)
    (h : tryBlock c conf sh epoTime o._staID (o._staID.take 4) (o :: os) l =
      .thrown .SVNumException l1) :
    selectClause .SVNumException = some .SVNumException ∧
    stationBody c conf sh epoTime (key, o :: os) l = .done (l1, .continue_) ∧
    l1.outfile = l.outfile ∧
    ∃ evs, l1.done = l.done ++ evs ∧ Event.printSolution o._staID ∉ evs := by
  obtain ⟨_, _, hout, evs, hd, hev⟩ := tryBlock_thrown_extends c conf sh epoTime _ _ _ l l1 _ h
  refine ⟨rfl, stationBody_of_thrown c conf sh epoTime key o os l l1 _ hvalid h, hout, evs, hd, ?_⟩
  intro hmem
  have := hev _ hmem
  simp [Event.inTry] at this

set_option maxRecDepth 100000 in
/-- C11 (witness): the three-satellite station whose correct solver throws. -/
theorem SVNumException_ends_pass_without_record_witness :
    ∃ l1 : Locals Nat,
    selectClause .SVNumException = some .SVNumException ∧
    stationBody (demoCollab solverTooFew) demoConf (demoShared [entryDAEJ]) (atSecond 103)
      ("DAEJ", ⟨"DAEJ00KOR", atSecond 103⟩ :: obsOf "DAEJ00KOR" 103 2) demoLocals =
        .done (l1, .continue_) ∧
    l1.outfile = demoLocals.outfile ∧
    ∃ evs, l1.done = demoLocals.done ++ evs ∧ Event.printSolution "DAEJ00KOR" ∉ evs :=
  (Res.fault_eq_some (by decide :
      (tryBlock (demoCollab solverTooFew) demoConf (demoShared [entryDAEJ]) (atSecond 103)
        "DAEJ00KOR" ("DAEJ00KOR".take 4) (⟨"DAEJ00KOR", atSecond 103⟩ :: obsOf "DAEJ00KOR" 103 2)
        demoLocals).fault = some .SVNumException)).elim fun l1 h =>
    ⟨l1, SVNumException_ends_pass_without_record (demoCollab solverTooFew) demoConf
      (demoShared [entryDAEJ]) (atSecond 103) "DAEJ" ⟨"DAEJ00KOR", atSecond 103⟩
      (obsOf "DAEJ00KOR" 103 2) demoLocals l1 rfl h⟩

/-! ### A batch: the snapshot and the locks -/

theorem Locals.InBatch.same {Ω : Type} (l : Locals Ω) : l.InBatch l :=
  ⟨rfl, [], by simp, by simp⟩

theorem Locals.InBatch.chain {Ω : Type} {l l1 l2 : Locals Ω} (h1 : l.InBatch l1)
    (h2 : l1.InBatch l2) : l.InBatch l2 := by
  obtain ⟨a1, evs1, d1, e1⟩ := h1
  obtain ⟨a2, evs2, d2, e2⟩ := h2
  refine ⟨a2.trans a1, evs1 ++ evs2, ?_, ?_⟩
  · rw [d2, d1, List.append_assoc]
  · intro ev hev
    rcases List.mem_append.mp hev with h | h
    · exact e1 ev h
    · exact e2 ev h

theorem Locals.Extends.inBatch {Ω : Type} {l l1 : Locals Ω} (h : l.Extends l1) :
    l.InBatch l1 := by
  obtain ⟨a, _, _, evs, d, e⟩ := h
  exact ⟨a, evs, d, fun ev hev => Event.inStation_of_inTry (e ev hev)⟩

theorem afterTry_inBatch {Ω : Type} (c : Collab Ω) (conf : Conf) (epoTime : CommonTime)
    (station : String) (l : Locals Ω) : l.InBatch (afterTry c conf epoTime station l) := by
  refine ⟨(afterTry_outfile c conf epoTime station l).2,
    (if conf.printModel then [Event.printModel station] else []) ++
      (if conf.filterCycles < 1 then [Event.printSolution station] else []),
    by rw [afterTry_done, List.append_assoc], ?_⟩
  intro ev hev
  by_cases hp : conf.printModel = true <;> by_cases hc : conf.filterCycles < 1 <;>
    simp only [hp, hc, if_true, if_false, List.mem_append, List.mem_singleton,
      List.not_mem_nil, or_false, false_or, Bool.false_eq_true] at hev
  · rcases hev with h | h <;> subst h <;> rfl
  · subst hev; rfl
  · subst hev; rfl

theorem stationBody_inBatch {Ω : Type} (c : Collab Ω) (conf : Conf) (sh : Shared)
    (epoTime : CommonTime) (entry : String × List t_satObs) (l l1 : Locals Ω) (j : Jump)
    (h : stationBody c conf sh epoTime entry l = .done (l1, j)) : l.InBatch l1 := by
  obtain ⟨key, obsList⟩ := entry
  cases obsList with
  | nil => simp [stationBody] at h
  | cons o os =>
    cases j with
    | fallThrough =>
      obtain ⟨l2, htry, hl1⟩ := stationBody_fallThrough c conf sh epoTime key o os l l1 h
      rw [hl1]
      exact (tryBlock_ok_extends c conf sh epoTime _ _ _ l l2 htry).inBatch.chain
        (afterTry_inBatch c conf epoTime _ l2)
    | continue_ =>
      rcases stationBody_continue c conf sh epoTime key o os l l1 h with ⟨_, h1⟩ | ⟨_, e, h1⟩
      · rw [h1]
        exact Locals.InBatch.same l
      · exact (tryBlock_thrown_extends c conf sh epoTime _ _ _ l l1 e h1).inBatch

theorem stationLoop_inBatch {Ω : Type} (c : Collab Ω) (conf : Conf) (sh : Shared)
    (epoTime : CommonTime) (fuel : Nat) :
    ∀ (m : StaObsMap) (l l1 : Locals Ω),
      stationLoop c conf sh epoTime fuel m l = .done l1 → l.InBatch l1 := by
  induction fuel with
  | zero =>
    intro m l l1 h
    cases m with
    | nil =>
      simp only [stationLoop, Run.done.injEq] at h
      subst h
      exact Locals.InBatch.same l
    | cons entry rest => simp [stationLoop] at h
  | succ n ih =>
    intro m l l1 h
    cases m with
    | nil =>
      simp only [stationLoop, Run.done.injEq] at h
      subst h
      exact Locals.InBatch.same l
    | cons entry rest =>
      unfold stationLoop at h
      split at h
      · rename_i l2 hb
        exact (stationBody_inBatch c conf sh epoTime entry l l2 _ hb).chain (ih _ _ _ h)
      · rename_i l2 hb
        exact (stationBody_inBatch c conf sh epoTime entry l l2 _ hb).chain (ih _ _ _ h)
      · simp at h
      · simp at h
      · simp at h

theorem wakeUp_done_cases {Ω : Type} (c : Collab Ω) (conf : Conf) (fuel : Nat) (sh : Shared)
    (l l1 : Locals Ω) (h : wakeUp c conf fuel sh l = .done l1) :
    ∃ key o os rest, sh.task.m_staObsMap = (key, o :: os) :: rest ∧
      ((deferBatch sh o._time = true ∧
          l1 = ((l.note (.lock .m_allObsMutex)).note .wait).note (.unlock .m_allObsMutex)) ∨
        (deferBatch sh o._time = false ∧ ∃ l2,
          stationLoop c conf sh o._time fuel sh.task.m_staObsMap
            (takeSnapshot sh ((l.note (.lock .m_allObsMutex)).note .wait)) = .done l2 ∧
          l1 = l2.note (.unlock .m_allObsMutex))) := by
  unfold wakeUp at h
  dsimp only at h
  split at h
  · simp at h
  · simp at h
  · rename_i key o os rest hmap
    refine ⟨key, o, os, rest, hmap, ?_⟩
    split_ifs at h with hd
    · simp only [Run.done.injEq] at h
      exact Or.inl ⟨hd, h.symm⟩
    · split at h
      · rename_i l2 hloop
        simp only [Run.done.injEq] at h
        exact Or.inr ⟨by simpa using hd, l2, hloop, h.symm⟩
      · simp at h
      · simp at h
      · simp at h

theorem holdAfter_append (a b : List Event) :
    ∀ held : List Mutex, holdAfter held (a ++ b) = holdAfter (holdAfter held a) b := by
  induction a with
  | nil => intro held; rfl
  | cons ev rest ih =>
    intro held
    cases ev <;> simp only [List.cons_append, holdAfter] <;> exact ih _

theorem holdAfter_cons (ev : Event) (rest : List Event) (held : List Mutex) :
    holdAfter held (ev :: rest) = holdAfter (holdAfter held [ev]) rest := by
  cases ev <;> rfl

theorem withLocks_append (a b : List Event) :
    ∀ held : List Mutex,
      withLocks held (a ++ b) = withLocks held a ++ withLocks (holdAfter held a) b := by
  induction a with
  | nil => intro held; rfl
  | cons ev rest ih =>
    intro held
    show (ev, held) :: withLocks (holdAfter held [ev]) (rest ++ b) =
      (ev, held) :: withLocks (holdAfter held [ev]) rest ++ withLocks (holdAfter held (ev :: rest)) b
    rw [ih, holdAfter_cons ev rest]
    rfl

theorem holdAfter_inStation (evs : List Event) (h : ∀ ev ∈ evs, Event.inStation ev = true) :
    ∀ held : List Mutex, holdAfter held evs = held := by
  induction evs with
  | nil => intro held; rfl
  | cons ev rest ih =>
    intro held
    have hev := h ev (List.mem_cons_self _ _)
    have hrest := ih fun e he => h e (List.mem_cons_of_mem _ he)
    cases ev <;> simp only [holdAfter, Event.inStation, Bool.false_eq_true] at hev ⊢ <;>
      exact hrest _

theorem withLocks_inStation (evs : List Event) (h : ∀ ev ∈ evs, Event.inStation ev = true) :
    ∀ held : List Mutex, withLocks held evs = evs.map fun ev => (ev, held) := by
  induction evs with
  | nil => intro held; rfl
  | cons ev rest ih =>
    intro held
    have hev := h ev (List.mem_cons_self _ _)
    have hrest := ih fun e he => h e (List.mem_cons_of_mem _ he)
    simp only [withLocks, List.map_cons]
    rw [holdAfter_inStation [ev] (by simpa using hev), hrest]

theorem wakeUp_open_done {Ω : Type} (c : Collab Ω) (conf : Conf) (fuel : Nat) (sh : Shared)
    (l l1 : Locals Ω) (key : String) (o : t_satObs) (os : List t_satObs) (rest : StaObsMap)
    (hmap : sh.task.m_staObsMap = (key, o :: os) :: rest)
    (hopen : deferBatch sh o._time = false) (h : wakeUp c conf fuel sh l = .done l1) :
    l1.ephStore = { sh.m_ephStore with usingCorrection := true } ∧
    ∃ l2 sevs,
      stationLoop c conf sh o._time fuel sh.task.m_staObsMap
        (takeSnapshot sh ((l.note (.lock .m_allObsMutex)).note .wait)) = .done l2 ∧
      l1 = l2.note (.unlock .m_allObsMutex) ∧
      (∀ ev ∈ sevs, Event.inStation ev = true) ∧
      l1.done = l.done ++ [.lock .m_allObsMutex, .wait, .lock .m_gpsEphMutex, .snapshot,
        .unlock .m_gpsEphMutex] ++ sevs ++ [.unlock .m_allObsMutex] := by
  obtain ⟨key1, o1, os1, rest1, hmap1, hcase⟩ := wakeUp_done_cases c conf fuel sh l l1 h
  rw [hmap] at hmap1
  simp only [List.cons.injEq, Prod.mk.injEq] at hmap1
  obtain ⟨⟨_, ho, _⟩, _⟩ := hmap1
  subst ho
  rcases hcase with ⟨hd, _⟩ | ⟨_, l2, hloop, hl1⟩
  · rw [hopen] at hd
    exact Bool.noConfusion hd
  · obtain ⟨heph, sevs, hdone, hsev⟩ := stationLoop_inBatch c conf sh _ fuel _ _ _ hloop
    refine ⟨?_, l2, sevs, hloop, hl1, hsev, ?_⟩
    · rw [hl1]
      exact heph
    · rw [hl1]
      simp [Locals.note, hdone, takeSnapshot]

/-- C12 (counterexample): in the wake-up with the batch `twoStations`, the
batch mutex `m_allObsMutex` is held when the first preprocess step, the predict
solver and the correct solver of a station run. -/
theorem batch_mutex_held_during_stages :
    (wakeUp (demoCollab noFault) demoConf 2 (demoShared twoStations) demoLocals).result.map
      (fun l =>
        ((withLocks [] l.done).contains
          (.step "ALGO00CAN" .preprocess .requireObs, [.m_allObsMutex]),
        (withLocks [] l.done).contains
          (.step "ALGO00CAN" .predict .pppPredictSolver, [.m_allObsMutex]),
        (withLocks [] l.done).contains
          (.step "BRUX00BEL" .correct .pppCorrectSolver, [.m_allObsMutex]))) =
      some (true, true, true) := by
  rw [wakeUp_open_result (demoCollab noFault) demoConf 2 (demoShared twoStations) demoLocals
    "ALGO" ⟨"ALGO00CAN", atSecond 103⟩ (obsOf "ALGO00CAN" 103 3)
    [("BRUX", obsOf "BRUX00BEL" 103 5)] rfl (gate_open_at_103 _)]
  decide

/-- C12 (amended): in every pass of `while(1)`, whatever is done in the station
loop (every step of the preprocess, predict and correct stages) is done with
exactly the batch mutex `m_allObsMutex` held; the ephemeris mutex
`m_gpsEphMutex` is held only for the copy of the store and its release; and at
the end of the pass no mutex is held. -/
theorem locks_held_during_a_pass {Ω : Type} (c : Collab Ω) (conf : Conf) (fuel : Nat)
    (sh : Shared) (l l1 : Locals Ω) (h : wakeUp c conf fuel sh l = .done l1) :
    ∃ evs, l1.done = l.done ++ evs ∧ holdAfter [] evs = [] ∧
      ∀ p ∈ withLocks [] evs,
        (p.1.inStation = true → p.2 = [Mutex.m_allObsMutex]) ∧
        (Mutex.m_gpsEphMutex ∈ p.2 → p.1 = .snapshot ∨ p.1 = .unlock .m_gpsEphMutex) := by
  obtain ⟨key, o, os, rest, hmap, hcase⟩ := wakeUp_done_cases c conf fuel sh l l1 h
  rcases hcase with ⟨_, hl1⟩ | ⟨hopen, _⟩
  · refine ⟨[.lock .m_allObsMutex, .wait, .unlock .m_allObsMutex], ?_, by decide, by decide⟩
    rw [hl1]
    simp [Locals.note]
  · obtain ⟨_, l2, sevs, _, _, hsev, hdone⟩ :=
      wakeUp_open_done c conf fuel sh l l1 key o os rest hmap hopen h
    refine ⟨_, by rw [hdone, List.append_assoc, List.append_assoc], ?_, ?_⟩
    · rw [holdAfter_append, holdAfter_append, holdAfter_inStation sevs hsev]
      decide
    · have hA : holdAfter [] [Event.lock Mutex.m_allObsMutex, Event.wait,
          Event.lock Mutex.m_gpsEphMutex, Event.snapshot, Event.unlock Mutex.m_gpsEphMutex] =
          [Mutex.m_allObsMutex] := by decide
      intro p hp
      rw [withLocks_append, withLocks_append, withLocks_inStation sevs hsev,
        holdAfter_inStation sevs hsev, hA] at hp
      have hp1 := List.mem_append.mp hp
      clear hp
      rcases hp1 with hp | hp
      · revert p
        decide
      · have hp2 := List.mem_append.mp hp
        clear hp
        rcases hp2 with hp | hp
        · obtain ⟨ev, _, hpe⟩ := List.mem_map.mp hp
          subst hpe
          have hno : Mutex.m_gpsEphMutex ∉ [Mutex.m_allObsMutex] := by decide
          exact ⟨fun _ => rfl, fun hm => absurd hm hno⟩
        · revert p
          decide

theorem Run.result_isSome {α : Type} {r : Run α} (h : r.result.isSome = true) :
    ∃ a, r = .done a := by
  cases r with
  | done a => exact ⟨a, rfl⟩
  | propagated e => simp [Run.result] at h
  | undefined => simp [Run.result] at h
  | outOfFuel => simp [Run.result] at h

theorem wakeUp_twoStations_done :
    (wakeUp (demoCollab noFault) demoConf 2 (demoShared twoStations) demoLocals).result.isSome =
      true := by
  rw [wakeUp_open_result (demoCollab noFault) demoConf 2 (demoShared twoStations) demoLocals
    "ALGO" ⟨"ALGO00CAN", atSecond 103⟩ (obsOf "ALGO00CAN" 103 3)
    [("BRUX", obsOf "BRUX00BEL" 103 5)] rfl (gate_open_at_103 _)]
  decide

/-- C12 (witness): the wake-up with the batch of two stations. -/
theorem locks_held_during_a_pass_witness :
    ∃ l1 : Locals Nat,
    wakeUp (demoCollab noFault) demoConf 2 (demoShared twoStations) demoLocals = .done l1 ∧
    ∃ evs, l1.done = demoLocals.done ++ evs ∧ holdAfter [] evs = [] ∧
      ∀ p ∈ withLocks [] evs,
        (p.1.inStation = true → p.2 = [Mutex.m_allObsMutex]) ∧
        (Mutex.m_gpsEphMutex ∈ p.2 → p.1 = .snapshot ∨ p.1 = .unlock .m_gpsEphMutex) :=
  (Run.result_isSome wakeUp_twoStations_done).elim fun l1 h =>
    ⟨l1, h, locks_held_during_a_pass (demoCollab noFault) demoConf 2 (demoShared twoStations)
      demoLocals l1 h⟩

/-! ### Every processing object reads the snapshot -/

theorem Res.andThen_congr {σ : Type} {P : σ → Prop} {r : Res σ} {f g : σ → Res σ}
    (hr : r.Holds P) (hfg : ∀ s, P s → f s = g s) : r.andThen f = r.andThen g := by
  cases r with
  | ok s => exact hfg s hr
  | thrown e s => rfl
  | ub => rfl

theorem runList_pinned {Ω : Type} (c : Collab Ω) (station : String) (stage : Stage)
    (list : List ProcObj) :
    ∀ l : Locals Ω, runList (c.pinned l.ephStore) station stage list l =
      runList c station stage list l := by
  induction list with
  | nil => intro l; rfl
  | cons obj rest ih =>
    intro l
    unfold runList
    have hp : (c.pinned l.ephStore).Process obj l.ephStore l.objs =
        c.Process obj l.ephStore l.objs := rfl
    rw [hp]
    split
    · rename_i o _
      exact ih ({ l with objs := o }.note (.step station stage obj))
    · rfl
    · rfl

theorem tryBlock_pinned {Ω : Type} (c : Collab Ω) (conf : Conf) (sh : Shared)
    (epoTime : CommonTime) (station staID4 : String) (obsList : List t_satObs) (l : Locals Ω) :
    tryBlock (c.pinned l.ephStore) conf sh epoTime station staID4 obsList l =
      tryBlock c conf sh epoTime station staID4 obsList l := by
  unfold tryBlock
  split
  · rfl
  · rename_i g _
    have h0 : ({ l with objs := { l.objs with gRin := g } }.note (.convert station)).ephStore =
        l.ephStore := rfl
    have hpre := runList_pinned c station .preprocess (preprocessList conf)
      ({ l with objs := { l.objs with gRin := g } }.note (.convert station))
    rw [h0] at hpre
    rw [hpre]
    refine Res.andThen_congr (runList_extends c station .preprocess _ _) fun l2 h2 => ?_
    have e2 : l2.ephStore = l.ephStore := h2.1
    have hboot : (if l2.firstTime = true then bootstrap (c.pinned l.ephStore) epoTime station l2
        else Res.ok l2) = (if l2.firstTime = true then bootstrap c epoTime station l2
        else Res.ok l2) := rfl
    rw [hboot]
    have hb : (if l2.firstTime = true then bootstrap c epoTime station l2
        else Res.ok l2).Holds l2.Extends := by
      split_ifs
      · exact bootstrap_extends c epoTime station l2
      · exact Locals.Extends.refl l2
    refine Res.andThen_congr hb fun l3 h3 => ?_
    have e3 : l3.ephStore = l.ephStore := h3.1.trans e2
    have hpred := runList_pinned c station .predict predictList l3
    rw [e3] at hpred
    rw [hpred]
    refine Res.andThen_congr (runList_extends c station .predict _ _) fun l4 h4 => ?_
    have e4 : l4.ephStore = l.ephStore := h4.1.trans e3
    have htid : tidesAndTropo (c.pinned l.ephStore) epoTime station staID4 l4 =
        tidesAndTropo c epoTime station staID4 l4 := rfl
    rw [htid]
    refine Res.andThen_congr (tidesAndTropo_extends c epoTime station staID4 l4)
      fun l5 h5 => ?_
    have e5 : l5.ephStore = l.ephStore := h5.1.trans e4
    have hcor := runList_pinned c station .correct (correctList conf) l5
    rw [e5] at hcor
    rw [hcor]
    refine Res.andThen_congr (runList_extends c station .correct _ _) fun l6 _ => ?_
    rfl

theorem stationBody_pinned {Ω : Type} (c : Collab Ω) (conf : Conf) (sh : Shared)
    (epoTime : CommonTime) (entry : String × List t_satObs) (l : Locals Ω) :
    stationBody (c.pinned l.ephStore) conf sh epoTime entry l =
      stationBody c conf sh epoTime entry l := by
  unfold stationBody
  split
  · rfl
  · dsimp only
    rw [tryBlock_pinned]
    rfl

theorem stationLoop_pinned {Ω : Type} (c : Collab Ω) (conf : Conf) (sh : Shared)
    (epoTime : CommonTime) (store : RealTimeEphStore) (fuel : Nat) :
    ∀ (m : StaObsMap) (l : Locals Ω), l.ephStore = store →
      stationLoop (c.pinned store) conf sh epoTime fuel m l =
        stationLoop c conf sh epoTime fuel m l := by
  induction fuel with
  | zero =>
    intro m l _
    cases m <;> rfl
  | succ n ih =>
    intro m l hl
    cases m with
    | nil => rfl
    | cons entry rest =>
      subst hl
      unfold stationLoop
      rw [stationBody_pinned]
      split
      · rename_i l1 hb
        exact ih _ _ (stationBody_inBatch c conf sh epoTime entry l l1 _ hb).1
      · rename_i l1 hb
        exact ih _ _ (stationBody_inBatch c conf sh epoTime entry l l1 _ hb).1
      · rfl
      · rfl
      · rfl

theorem wakeUp_pinned {Ω : Type} (c : Collab Ω) (conf : Conf) (fuel : Nat) (sh : Shared)
    (l : Locals Ω) :
    wakeUp (c.pinned { sh.m_ephStore with usingCorrection := true }) conf fuel sh l =
      wakeUp c conf fuel sh l := by
  unfold wakeUp
  dsimp only
  split
  · rfl
  · rfl
  · split_ifs
    · rfl
    · rw [stationLoop_pinned c conf sh _ { sh.m_ephStore with usingCorrection := true } fuel _ _
        rfl]

/-- C14: in a pass of `while(1)` whose gate is open, the store is copied exactly
once, under the ephemeris mutex, after the wait and before anything of the
station loop; the copy has corrections enabled; no pass of the station loop
changes it; and the pass is the same as one in which every processing object
(basic modeller, observable correction, wind-up and the others) reads that
copy, which is also the store the bootstrap reads. -/
theorem snapshot_once_per_batch {Ω : Type} (c : Collab Ω) (conf : Conf) (fuel : Nat)
    (sh : Shared) (l l1 : Locals Ω) (key : String) (o : t_satObs) (os : List t_satObs)
    (rest : StaObsMap) (hmap : sh.task.m_staObsMap = (key, o :: os) :: rest)
    (hgate : PPPTask.waitForCorr sh.task o._time = true)
    (h : wakeUp c conf fuel sh l = .done l1) :
    (∃ sevs, (∀ ev ∈ sevs, Event.inStation ev = true) ∧
      l1.done = l.done ++ [.lock .m_allObsMutex, .wait, .lock .m_gpsEphMutex, .snapshot,
        .unlock .m_gpsEphMutex] ++ sevs ++ [.unlock .m_allObsMutex]) ∧
    (takeSnapshot sh ((l.note (.lock .m_allObsMutex)).note .wait)).ephStore =
      { sh.m_ephStore with usingCorrection := true } ∧
    l1.ephStore = { sh.m_ephStore with usingCorrection := true } ∧
    (∀ (entry : String × List t_satObs) (la lb : Locals Ω) (j : Jump),
      stationBody c conf sh o._time entry la = .done (lb, j) → lb.ephStore = la.ephStore) ∧
    (∀ (station staID4 : String) (obsList : List t_satObs) (la : Locals Ω),
      (tryBlock c conf sh o._time station staID4 obsList la).Holds
        fun lb => lb.ephStore = la.ephStore) ∧
    wakeUp (c.pinned { sh.m_ephStore with usingCorrection := true }) conf fuel sh l =
      .done l1 := by
  have hopen : deferBatch sh o._time = false := by simp [deferBatch, hgate]
  obtain ⟨heph, _, sevs, _, _, hsev, hdone⟩ :=
    wakeUp_open_done c conf fuel sh l l1 key o os rest hmap hopen h
  refine ⟨⟨sevs, hsev, hdone⟩, rfl, heph, ?_, ?_, ?_⟩
  · intro entry la lb j hb
    exact (stationBody_inBatch c conf sh _ entry la lb j hb).1
  · intro station staID4 obsList la
    exact (tryBlock_extends c conf sh _ station staID4 obsList la).imp fun s hs => hs.1
  · rw [wakeUp_pinned, h]

/-- C14 (witness): the wake-up with the batch of two stations, 3 s after the
correction. -/
theorem snapshot_once_per_batch_witness :
    ∃ l1 : Locals Nat,
    wakeUp (demoCollab noFault) demoConf 2 (demoShared twoStations) demoLocals = .done l1 ∧
    (∃ sevs, (∀ ev ∈ sevs, Event.inStation ev = true) ∧
      l1.done = demoLocals.done ++ [.lock .m_allObsMutex, .wait, .lock .m_gpsEphMutex,
        .snapshot, .unlock .m_gpsEphMutex] ++ sevs ++ [.unlock .m_allObsMutex]) ∧
    (takeSnapshot (demoShared twoStations)
        ((demoLocals.note (.lock .m_allObsMutex)).note .wait)).ephStore =
      { (demoShared twoStations).m_ephStore with usingCorrection := true } ∧
    l1.ephStore = { (demoShared twoStations).m_ephStore with usingCorrection := true } ∧
    (∀ (entry : String × List t_satObs) (la lb : Locals Nat) (j : Jump),
      stationBody (demoCollab noFault) demoConf (demoShared twoStations) (atSecond 103) entry la
        = .done (lb, j) → lb.ephStore = la.ephStore) ∧
    (∀ (station staID4 : String) (obsList : List t_satObs) (la : Locals Nat),
      (tryBlock (demoCollab noFault) demoConf (demoShared twoStations) (atSecond 103) station
        staID4 obsList la).Holds fun lb => lb.ephStore = la.ephStore) ∧
    wakeUp ((demoCollab noFault).pinned
        { (demoShared twoStations).m_ephStore with usingCorrection := true })
      demoConf 2 (demoShared twoStations) demoLocals = .done l1 :=
  (Run.result_isSome wakeUp_twoStations_done).elim fun l1 h =>
    ⟨l1, h, snapshot_once_per_batch (demoCollab noFault) demoConf 2 (demoShared twoStations)
      demoLocals l1 "ALGO" ⟨"ALGO00CAN", atSecond 103⟩ (obsOf "ALGO00CAN" 103 3)
      [("BRUX", obsOf "BRUX00BEL" 103 5)] rfl (gate_open_at_103 _) h⟩

/-! ### The bootstrap -/

theorem typeValueMap.at_touch (m : typeValueMap) (t : TypeID) : (m.touch t).at t = m.at t := by
  simp [typeValueMap.touch, typeValueMap.at]

theorem bodyValue_bodyTouch (sat sat1 : SatID) (t : TypeID)
    (body : List (SatID × typeValueMap)) :
    bodyValue (bodyTouch body sat t) sat1 t = bodyValue body sat1 t := by
  have hkey : ((fun p : SatID × typeValueMap => decide (p.1 = sat1)) ∘
      fun p => if p.1 = sat then (p.1, p.2.touch t) else p) =
      fun p : SatID × typeValueMap => decide (p.1 = sat1) := by
    funext p
    by_cases hs : p.1 = sat <;> simp [hs]
  unfold bodyValue bodyTouch
  rw [List.find?_map, hkey]
  cases List.find? (fun p : SatID × typeValueMap => decide (p.1 = sat1)) body with
  | none => rfl
  | some p =>
    by_cases hs : p.1 = sat
    · simp [hs, typeValueMap.at_touch]
    · simp [hs]

theorem dataRow_bodyTouch (ephStore : RealTimeEphStore) (epoTime : CommonTime)
    (body : List (SatID × typeValueMap)) (sat sat1 : SatID) :
    dataRow ephStore epoTime (bodyTouch body sat .P1) sat1 = dataRow ephStore epoTime body sat1 := by
  unfold dataRow
  rw [bodyValue_bodyTouch]

theorem fillData_ok (ephStore : RealTimeEphStore) (epoTime : CommonTime) (sats : List SatID) :
    ∀ (body body1 : List (SatID × typeValueMap)) (data data1 : List (List ℚ)),
      fillData ephStore epoTime sats (body, data) = .ok (body1, data1) →
        (∀ sat ∈ sats, ∃ v, ephStore.getXvt sat epoTime = some v) ∧
        data1 = data ++ sats.map (dataRow ephStore epoTime body) := by
  induction sats with
  | nil =>
    intro body body1 data data1 h
    simp only [fillData, Res.ok.injEq, Prod.mk.injEq] at h
    simp [h.2]
  | cons sat rest ih =>
    intro body body1 data data1 h
    unfold fillData at h
    split at h
    · simp at h
    · rename_i v hv
      obtain ⟨h1, h2⟩ := ih _ _ _ _ h
      refine ⟨?_, ?_⟩
      · intro s hs
        rcases List.mem_cons.mp hs with hs | hs
        · subst hs
          exact ⟨v, hv⟩
        · exact h1 s hs
      · rw [h2]
        have hrow : dataRow ephStore epoTime body sat =
            [v.x.x, v.x.y, v.x.z, bodyValue body sat .P1 + C_MPS * v.clkbias] := by
          simp [dataRow, hv]
        have hrest : rest.map (dataRow ephStore epoTime (bodyTouch body sat .P1)) =
            rest.map (dataRow ephStore epoTime body) :=
          List.map_congr_left fun s _ => dataRow_bodyTouch ephStore epoTime body sat s
        rw [hrest, List.map_cons, hrow, List.append_assoc]
        rfl

theorem getSatID_sorted (body : List (SatID × typeValueMap)) :
    (getSatID body).Sorted (fun a b => a < b) ∧
      ∀ sat, sat ∈ getSatID body ↔ ∃ m, (sat, m) ∈ body := by
  unfold getSatID
  refine ⟨?_, ?_⟩
  · have hs := List.sorted_insertionSort (fun a b : SatID => a ≤ b) ((body.map Prod.fst).dedup)
    have hn : (((body.map Prod.fst).dedup).insertionSort (fun a b => a ≤ b)).Nodup :=
      (List.perm_insertionSort _ _).nodup_iff.mpr (List.nodup_dedup _)
    exact hs.lt_of_le hn
  · intro sat
    rw [(List.perm_insertionSort _ _).mem_iff, List.mem_dedup, List.mem_map]
    constructor
    · rintro ⟨p, hp, rfl⟩
      exact ⟨p.2, hp⟩
    · rintro ⟨m, hm⟩
      exact ⟨(sat, m), hm, rfl⟩

theorem first_entry (sat : SatID) :
    ∀ body : List (SatID × typeValueMap), (∃ m, (sat, m) ∈ body) →
      ∃ m pre post, body = pre ++ (sat, m) :: post ∧ ∀ q ∈ pre, q.1 ≠ sat := by
  intro body
  induction body with
  | nil =>
    rintro ⟨m, hm⟩
    simp at hm
  | cons p rest ih =>
    rintro ⟨m, hm⟩
    by_cases hp : p.1 = sat
    · refine ⟨p.2, [], rest, ?_, by simp⟩
      rw [← hp]
      rfl
    · have hrest : ∃ m, (sat, m) ∈ rest := by
        rcases List.mem_cons.mp hm with h | h
        · exact absurd (by rw [← h]) hp
        · exact ⟨m, h⟩
      obtain ⟨m1, pre, post, hb, hpre⟩ := ih hrest
      refine ⟨m1, p :: pre, post, by rw [hb]; rfl, ?_⟩
      intro q hq
      rcases List.mem_cons.mp hq with h | h
      · rw [h]
        exact hp
      · exact hpre q h

theorem bodyValue_first (sat : SatID) (t : TypeID) (m : typeValueMap)
    (post : List (SatID × typeValueMap)) :
    ∀ pre : List (SatID × typeValueMap), (∀ q ∈ pre, q.1 ≠ sat) →
      bodyValue (pre ++ (sat, m) :: post) sat t = (m t).getD 0 := by
  intro pre
  induction pre with
  | nil =>
    intro _
    simp [bodyValue, typeValueMap.at]
  | cons p rest ih =>
    intro hpre
    have hp : p.1 ≠ sat := hpre p (List.mem_cons_self _ _)
    have hrest := ih fun q hq => hpre q (List.mem_cons_of_mem _ hq)
    unfold bodyValue at hrest ⊢
    simpa [List.find?, hp] using hrest

/-- C17: when the first-epoch bootstrap completes, the satellites of the
preprocessed epoch were taken in strictly ascending order, each exactly once;
the matrix handed to the multilateration has one row per satellite in that
order, and the row of a satellite is (X, Y, Z, P1 + c * clockBias), where X, Y,
Z and clockBias are what the snapshot gives for the satellite at the epoch time
and P1 is the value stored for `P1` in the satellite's entry of the body (0.0
when none is stored, as `operator[]` gives); and the receiver position put in
the estimator is the first three components of the returned solution. -/
theorem bootstrap_data_matrix {Ω : Type} (c : Collab Ω) (epoTime : CommonTime)
    (station : String) (l l1 : Locals Ω) (h : bootstrap c epoTime station l = .ok l1) :
    (getSatID l.objs.gRin.body).Sorted (fun a b => a < b) ∧
    (∀ sat, sat ∈ getSatID l.objs.gRin.body ↔ ∃ m, (sat, m) ∈ l.objs.gRin.body) ∧
    ∃ (data : List (List ℚ)) (ret : Int) (x y z : ℚ) (more : List ℚ),
      filledData (fillData l.ephStore epoTime (getSatID l.objs.gRin.body)
        (l.objs.gRin.body, [])) = some data ∧
      List.Forall₂
        (fun sat row => ∃ (v : Xvt) (m : typeValueMap) (pre post : List (SatID × typeValueMap)),
          l.ephStore.getXvt sat epoTime = some v ∧
          l.objs.gRin.body = pre ++ (sat, m) :: post ∧ (∀ q ∈ pre, q.1 ≠ sat) ∧
          row = [v.x.x, v.x.y, v.x.z, (m TypeID.P1).getD 0 + 299792458 * v.clkbias])
        (getSatID l.objs.gRin.body) data ∧
      c.Compute data = .ok (ret, x :: y :: z :: more) ∧
      l1.objs.rxPosition = ⟨x, y, z⟩ ∧ l1.firstTime = false := by
  obtain ⟨hsorted, hmem⟩ := getSatID_sorted l.objs.gRin.body
  unfold bootstrap at h
  dsimp only at h
  split at h
  · simp at h
  · simp at h
  · rename_i body data hfill
    obtain ⟨hx, hdata⟩ := fillData_ok _ _ _ _ _ _ _ hfill
    simp only [Locals.note, List.nil_append] at hx hdata hfill
    refine ⟨hsorted, hmem, ?_⟩
    split at h
    · simp at h
    · rename_i ret solution hcomp
      split at h
      · rename_i x y z more
        simp only [Res.ok.injEq] at h
        subst h
        refine ⟨data, ret, x, y, z, more, by rw [hfill]; rfl, ?_, hcomp, rfl, rfl⟩
        rw [hdata, List.forall₂_map_right_iff, List.forall₂_same]
        intro sat hsat
        obtain ⟨v, hv⟩ := hx sat hsat
        obtain ⟨m, pre, post, hb, hpre⟩ := first_entry sat _ ((hmem sat).mp hsat)
        refine ⟨v, m, pre, post, hv, hb, hpre, ?_⟩
        have hval : bodyValue l.objs.gRin.body sat .P1 = (m TypeID.P1).getD 0 := by
          rw [hb]
          exact bodyValue_first sat .P1 m post pre hpre
        simp [dataRow, hv, hval, C_MPS]
      · simp at h

theorem Res.isOk_eq_true {σ : Type} {r : Res σ} (h : r.isOk = true) : ∃ s, r = .ok s := by
  cases r with
  | ok s => exact ⟨s, rfl⟩
  | thrown e s => simp [Res.isOk] at h
  | ub => simp [Res.isOk] at h

theorem clockLocals_filledData :
    filledData (fillData clockLocals.ephStore (atSecond 103) (getSatID clockLocals.objs.gRin.body)
      (clockLocals.objs.gRin.body, [])) =
      some [[3, 6, 9, 20000001], [5, 10, 15, 22000001], [7, 14, 21, 21000001],
        [12, 24, 36, 23000001]] := by
  have hs : getSatID clockLocals.objs.gRin.body = [3, 5, 7, 12] := by decide
  rw [hs]
  norm_num [fillData, filledData, clockLocals, bootLocals, clockStore, bodyValue, bodyTouch,
    typeValueMap.at, typeValueMap.touch, C_MPS, List.find?]

set_option maxRecDepth 100000 in
/-- C17 (witness): the bootstrap for an epoch of the satellites 7, 3, 12 and 5
with the P1 values 21000000, 20000000, 23000000 and 22000000, every satellite
at (n, 2n, 3n) with one metre of clock bias: the matrix has the rows of the
satellites 3, 5, 7, 12 in this order. -/
theorem bootstrap_data_matrix_witness :
    ∃ l1 : Locals Nat,
    bootstrap (demoCollab noFault) (atSecond 103) "ALGO00CAN" clockLocals = .ok l1 ∧
    (getSatID clockLocals.objs.gRin.body).Sorted (fun a b => a < b) ∧
    (∀ sat, sat ∈ getSatID clockLocals.objs.gRin.body ↔
      ∃ m, (sat, m) ∈ clockLocals.objs.gRin.body) ∧
    ∃ (data : List (List ℚ)) (ret : Int) (x y z : ℚ) (more : List ℚ),
      filledData (fillData clockLocals.ephStore (atSecond 103)
        (getSatID clockLocals.objs.gRin.body) (clockLocals.objs.gRin.body, [])) = some data ∧
      List.Forall₂
        (fun sat row => ∃ (v : Xvt) (m : typeValueMap) (pre post : List (SatID × typeValueMap)),
          clockLocals.ephStore.getXvt sat (atSecond 103) = some v ∧
          clockLocals.objs.gRin.body = pre ++ (sat, m) :: post ∧ (∀ q ∈ pre, q.1 ≠ sat) ∧
          row = [v.x.x, v.x.y, v.x.z, (m TypeID.P1).getD 0 + 299792458 * v.clkbias])
        (getSatID clockLocals.objs.gRin.body) data ∧
      (demoCollab noFault).Compute data = .ok (ret, x :: y :: z :: more) ∧
      l1.objs.rxPosition = ⟨x, y, z⟩ ∧ l1.firstTime = false ∧
      data = [[3, 6, 9, 20000001], [5, 10, 15, 22000001], [7, 14, 21, 21000001],
        [12, 24, 36, 23000001]] :=
  (Res.isOk_eq_true (by decide :
      (bootstrap (demoCollab noFault) (atSecond 103) "ALGO00CAN" clockLocals).isOk = true)).elim
    fun l1 h =>
      match bootstrap_data_matrix (demoCollab noFault) (atSecond 103) "ALGO00CAN"
        clockLocals l1 h with
      | ⟨hs, hm, data, ret, x, y, z, more, hfill, hrows, hcomp, hpos, hft⟩ =>
        ⟨l1, h, hs, hm, data, ret, x, y, z, more, hfill, hrows, hcomp, hpos, hft,
          Option.some.inj (hfill.symm.trans clockLocals_filledData)⟩

set_option maxRecDepth 100000 in
/-- C15 (the code at the failing input): the first epoch of the three-satellite
station gives the multilateration a matrix of three rows, for which it reports
failure (return code -1). The return code is not looked at: the pass completes,
the receiver position is taken from the solution vector and the first-time flag
is cleared. When the failing multilateration leaves the solution vector empty,
reading its components is undefined. -/
theorem bootstrap_ignores_failure :
    getSatID bodyDAEJ = [1, 2, 3] ∧
    bancroftRet failingBancroft ((getSatID bodyDAEJ).map
      (dataRow demoStore (atSecond 103) bodyDAEJ)) = some (-1) ∧
    (stationBody failingBancroft demoConf (demoShared [entryDAEJ]) (atSecond 103)
      entryDAEJ demoLocals).result.map
        (fun p => (p.2, p.1.done.contains (.bootstrap "DAEJ00KOR"), p.1.firstTime,
          p.1.objs.rxPosition)) =
      some (.fallThrough, true, false, ⟨3, 2, 3⟩) ∧
    (demoLocals.firstTime, demoLocals.objs.rxPosition) = (true, ⟨0, 0, 0⟩) ∧
    bancroftRet emptyBancroft ((getSatID bodyDAEJ).map
      (dataRow demoStore (atSecond 103) bodyDAEJ)) = some (-1) ∧
    (match stationBody emptyBancroft demoConf (demoShared [entryDAEJ]) (atSecond 103)
        entryDAEJ demoLocals with
      | .undefined => true
      | _ => false) = true := by
  refine ⟨?_, ?_, ?_, ?_, ?_, ?_⟩ <;> decide

/-! ### Start-up and the end of `run` -/

theorem spinUp_eq (env : Startup) (self : PPPTask) :
    self.spinUp env = .exited (-1) ∨
      ∃ self1 : PPPTask, self.spinUp env = .returned self1 ∧
        env.confOpens self.confFileName = true ∧
        self1.m_sEopFileListName = self.m_sEopFileListName := by
  unfold PPPTask.spinUp PPPTask.confFileName
  dsimp only
  by_cases hn : self.m_sPPPConfFile.length = 0
  · simp only [hn, if_true]
    by_cases ho : env.confOpens "ppprt.conf" = true
    · exact Or.inr ⟨{ self with m_sPPPConfFile := "ppprt.conf" }, by rw [if_pos ho], ho, rfl⟩
    · exact Or.inl (by rw [if_neg ho])
  · simp only [hn, if_false]
    by_cases ho : env.confOpens self.m_sPPPConfFile = true
    · exact Or.inr ⟨self, by rw [if_pos ho], ho, rfl⟩
    · exact Or.inl (by rw [if_neg ho])

theorem spinUp_no_conf (env : Startup) (self : PPPTask)
    (h : env.confOpens self.confFileName = false) : self.spinUp env = .exited (-1) := by
  rcases spinUp_eq env self with h1 | ⟨_, _, h2, _⟩
  · exact h1
  · rw [h] at h2
    exact Bool.noConfusion h2

theorem process_not_returned {Ω : Type} (c : Collab Ω) (env : Startup) (fuel : Nat)
    (wakeUps : List Shared) (objs : Objects Ω) (self : PPPTask) (u : Unit) :
    self.process c env fuel wakeUps objs ≠ .returned u := by
  unfold PPPTask.process
  split
  · simp
  · split
    · simp
    · simp
    · split_ifs
      · simp
      · split
        · simp
        · split
          · simp
          · split <;> simp

/-- C13: in real-time mode, if the configuration file that `spinUp` opens does
not open, or the BLQ file is missing, or the EOP file list does not open (the
files before it being there), `run` ends in `exit (-1)`, a failure status,
whatever batches would have come: the wait for the first batch is not reached
and nothing is processed. -/
theorem missing_startup_file_exits {Ω : Type} (c : Collab Ω) (env : Startup) (fuel : Nat)
    (wakeUps : List Shared) (objs : Objects Ω) (self : PPPTask)
    (hrt : self.m_bRealTime = true)
    (h : env.confOpens self.confFileName = false ∨
      (env.confOpens self.confFileName = true ∧
        ∃ f, env.oceanLoadingFile = .ok f ∧ env.blqOpen f = .FileMissingException) ∨
      (env.confOpens self.confFileName = true ∧
        (∃ f, env.oceanLoadingFile = .ok f ∧ env.blqOpen f = .opened) ∧
        env.eopListOpens self.m_sEopFileListName = false)) :
    self.run c env fuel wakeUps objs = .exited (-1) ∧ (-1 : Int) ≠ 0 := by
  refine ⟨?_, by decide⟩
  unfold PPPTask.run PPPTask.runBody
  rw [if_pos hrt]
  rcases h with h | ⟨hc, f, hf, hb⟩ | ⟨hc, ⟨f, hf, hb⟩, he⟩
  · rw [spinUp_no_conf env self h]
  · rcases spinUp_eq env self with h1 | ⟨self1, h1, _, _⟩
    · rw [h1]
    · rw [h1]
      simp [PPPTask.process, hf, hb]
  · rcases spinUp_eq env self with h1 | ⟨self1, h1, _, hn⟩
    · rw [h1]
    · rw [h1]
      simp [PPPTask.process, hf, hb, hn, he]

/-- C13 (witness): the three missing files, one at a time. -/
theorem missing_startup_file_exits_witness :
    (gateTask.run (demoCollab noFault) noConfFile 2 [demoShared twoStations] demoLocals.objs =
        .exited (-1) ∧ (-1 : Int) ≠ 0) ∧
    (gateTask.run (demoCollab noFault) noBlqFile 2 [demoShared twoStations] demoLocals.objs =
        .exited (-1) ∧ (-1 : Int) ≠ 0) ∧
    (gateTask.run (demoCollab noFault) noEopList 2 [demoShared twoStations] demoLocals.objs =
        .exited (-1) ∧ (-1 : Int) ≠ 0) :=
  ⟨missing_startup_file_exits (demoCollab noFault) noConfFile 2 [demoShared twoStations]
      demoLocals.objs gateTask rfl (Or.inl rfl),
    missing_startup_file_exits (demoCollab noFault) noBlqFile 2 [demoShared twoStations]
      demoLocals.objs gateTask rfl (Or.inr (Or.inl ⟨rfl, "OCEAN-GOT00.dat", rfl, rfl⟩)),
    missing_startup_file_exits (demoCollab noFault) noEopList 2 [demoShared twoStations]
      demoLocals.objs gateTask rfl
      (Or.inr (Or.inr ⟨rfl, ⟨"OCEAN-GOT00.dat", rfl, rfl⟩, rfl⟩))⟩

/-- C20: `process` never returns: whatever the start-up and the batches, its
loop ends in no state from which the call returns normally, so `run` never
returns true. In file mode `run` returns false, whatever batches are there; and
when `spinUp` or `process` throws, the `catch(...)` of `run` takes the exception
and `run` returns false, as it does when a configuration value cannot be read
during the set-up of `process`. -/
theorem run_never_returns_true {Ω : Type} (c : Collab Ω) (env : Startup) (fuel : Nat)
    (wakeUps : List Shared) (objs : Objects Ω) (self : PPPTask) (e : Thrown)
    (proc : PPPTask → Ended Unit) (files : Ended Unit) :
    self.process c env fuel wakeUps objs ≠ .returned () ∧
    self.run c env fuel wakeUps objs ≠ .returned true ∧
    PPPTask.run c env fuel wakeUps objs { self with m_bRealTime := false } = .returned false ∧
    PPPTask.runBody { self with m_bRealTime := true } (.threw e) proc files = .returned false ∧
    PPPTask.runBody { self with m_bRealTime := true } (.returned self) (fun _ => .threw e) files =
      .returned false ∧
    PPPTask.run c ⟨fun _ => true, .ok "blq", fun _ => .opened, fun _ => true, [], .error e⟩
        fuel wakeUps objs { self with m_bRealTime := true } = .returned false := by
  refine ⟨process_not_returned c env fuel wakeUps objs self (), ?_, rfl, rfl, rfl, ?_⟩
  · intro hrun
    unfold PPPTask.run PPPTask.runBody at hrun
    split_ifs at hrun
    · split at hrun
      · rename_i self1 _
        split at hrun
        · rename_i u hu
          exact process_not_returned c env fuel wakeUps objs self1 u hu
        all_goals simp at hrun
      all_goals simp at hrun
    · split at hrun
      all_goals simp at hrun
  · unfold PPPTask.run PPPTask.runBody PPPTask.spinUp
    dsimp only
    split_ifs <;> simp_all [PPPTask.process, loadEopFiles]

/-! ### A station without BLQ data -/

theorem stationBody_noBLQ {Ω : Type} (c : Collab Ω) (conf : Conf) (sh : Shared)
    (epoTime : CommonTime) (key : String) (o : t_satObs) (os : List t_satObs) (l : Locals Ω)
    (h : c.isValid (o._staID.take 4) = false) :
    stationBody c conf sh epoTime (key, o :: os) l = .done (l, .continue_) := by
  simp [stationBody, h]

theorem stationLoop_noBLQ {Ω : Type} (c : Collab Ω) (conf : Conf) (sh : Shared)
    (epoTime : CommonTime) (key : String) (o : t_satObs) (os : List t_satObs)
    (rest : StaObsMap) (l : Locals Ω) (h : c.isValid (o._staID.take 4) = false) (fuel : Nat) :
    stationLoop c conf sh epoTime fuel ((key, o :: os) :: rest) l = .outOfFuel := by
  induction fuel with
  | zero => rfl
  | succ n ih =>
    rw [stationLoop_continue c conf sh epoTime n (key, o :: os) rest l l
      (stationBody_noBLQ c conf sh epoTime key o os l h)]
    exact ih

/-- C21 (the code at the failing input): in the batch `twoStations` the BLQ
store has no data for the first station and has data for the second. The pass
for the first station does nothing and ends in `continue`, which skips `++itm`:
the next pass is for the same station from the same state, and for no number of
passes does the station loop end or reach the second station. -/
theorem stationLoop_stuck_on_station_without_BLQ :
    noBlqCollab.isValid ("ALGO00CAN".take 4) = false ∧
    noBlqCollab.isValid ("BRUX00BEL".take 4) = true ∧
    (stationBody noBlqCollab demoConf (demoShared twoStations) (atSecond 103) entryALGO
      demoLocals).result.map (fun p => (p.2, p.1.done, p.1.outfile)) =
        some (.continue_, [], []) ∧
    (∀ fuel, stationLoop noBlqCollab demoConf (demoShared twoStations) (atSecond 103)
        (fuel + 1) twoStations demoLocals =
      stationLoop noBlqCollab demoConf (demoShared twoStations) (atSecond 103)
        fuel twoStations demoLocals) ∧
    ∀ fuel, stationLoop noBlqCollab demoConf (demoShared twoStations) (atSecond 103)
        fuel twoStations demoLocals = .outOfFuel := by
  have hv : noBlqCollab.isValid ("ALGO00CAN".take 4) = false := by decide
  refine ⟨hv, by decide, by decide, ?_, ?_⟩
  · intro fuel
    exact stationLoop_continue noBlqCollab demoConf (demoShared twoStations) (atSecond 103) fuel
      ("ALGO", ⟨"ALGO00CAN", atSecond 103⟩ :: obsOf "ALGO00CAN" 103 3)
      [("BRUX", obsOf "BRUX00BEL" 103 5)] demoLocals demoLocals
      (stationBody_noBLQ _ _ _ _ "ALGO" ⟨"ALGO00CAN", atSecond 103⟩ _ _ hv)
  · intro fuel
    exact stationLoop_noBLQ noBlqCollab demoConf (demoShared twoStations) (atSecond 103) "ALGO"
      ⟨"ALGO00CAN", atSecond 103⟩ (obsOf "ALGO00CAN" 103 3) [("BRUX", obsOf "BRUX00BEL" 103 5)]
      demoLocals hv fuel

/-! ### The reads before the gate -/

theorem wakeUp_eq_afterRead {Ω : Type} (c : Collab Ω) (conf : Conf) (fuel : Nat) (sh : Shared)
    (l : Locals Ω) (key : String) (o : t_satObs) (os : List t_satObs) (rest : StaObsMap)
    (hmap : sh.task.m_staObsMap = (key, o :: os) :: rest) :
    wakeUp c conf fuel sh l =
      afterRead c conf fuel sh ((l.note (.lock .m_allObsMutex)).note .wait) o._time := by
  unfold wakeUp afterRead
  rw [hmap]

theorem deferBatch_empty (sh : Shared) (epoTime : CommonTime) (h : sh.task.m_staObsMap = []) :
    deferBatch sh epoTime = false := by
  simp [deferBatch, h]

theorem afterRead_empty {Ω : Type} (c : Collab Ω) (conf : Conf) (fuel : Nat) (sh : Shared)
    (l0 : Locals Ω) (epoTime : CommonTime) (h : sh.task.m_staObsMap = []) :
    afterRead c conf fuel sh l0 epoTime =
      .done ((takeSnapshot sh l0).note (.unlock .m_allObsMutex)) := by
  unfold afterRead
  rw [deferBatch_empty sh epoTime h, h]
  cases fuel <;> simp [stationLoop]

/-- C22 (the code at the failing input): on a wake-up with an empty station map
the pass dereferences `itm` and `itl` all the same, which is undefined, as it
is for a first station with an empty observation list. The test that follows
is false for an empty map whatever time was read, also when `waitForCorr`
returns false for it: the gate is bypassed, and the statements after the reads
take the snapshot under the ephemeris mutex. -/
theorem empty_map_is_dereferenced_and_passes_the_gate :
    (wakeUp (demoCollab noFault) demoConf 2 (demoShared []) demoLocals).isUndefined = true ∧
    (wakeUp (demoCollab noFault) demoConf 2 (demoShared [("ALGO", [])])
      demoLocals).isUndefined = true ∧
    PPPTask.waitForCorr (demoShared []).task (atSecond 106) = false ∧
    (∀ epoTime, deferBatch (demoShared []) epoTime = false) ∧
    ∀ epoTime,
      (afterRead (demoCollab noFault) demoConf 2 (demoShared [])
        ((demoLocals.note (.lock .m_allObsMutex)).note .wait) epoTime).result.map
          (fun l => l.done) =
        some [.lock .m_allObsMutex, .wait, .lock .m_gpsEphMutex, .snapshot,
          .unlock .m_gpsEphMutex, .unlock .m_allObsMutex] := by
  refine ⟨rfl, rfl, gate_closed_at_106 [], fun t => deferBatch_empty _ t rfl, fun t => ?_⟩
  rw [afterRead_empty (demoCollab noFault) demoConf 2 (demoShared []) _ t rfl]
  rfl

/-! ### The parameters of the tropospheric model -/

theorem tidesAndTropo_neillTM {Ω : Type} (c : Collab Ω) (epoTime : CommonTime)
    (station staID4 : String) (l l1 : Locals Ω)
    (h : tidesAndTropo c epoTime station staID4 l = .ok l1) :
    l1.objs.neillTM = some (l.initialTime, l.objs.rxPosition) := by
  unfold tidesAndTropo at h
  dsimp only at h
  split at h
  · simp at h
  · split at h
    · simp at h
    · split at h
      · simp at h
      · simp only [Res.ok.injEq] at h
        subst h
        rfl

set_option maxRecDepth 100000 in
/-- C23 (the code at the failing input): the statement before the correct list
is `neillTM.setAllParameters(initialTime, tempPos)`: the tropospheric model gets
the receiver position read after the predict list, and as time the local
`initialTime`, which is default-constructed and assigned nowhere. For the
station-epoch at second 103 of day 58000 the model is left with the time zero,
not with the epoch's time. -/
theorem tropo_model_gets_initialTime :
    (∀ (c : Collab Nat) (epoTime : CommonTime) (station staID4 : String) (l l1 : Locals Nat),
      tidesAndTropo c epoTime station staID4 l = .ok l1 →
        l1.objs.neillTM = some (l.initialTime, l.objs.rxPosition)) ∧
    (∀ objs : Objects Nat, (initialLocals objs).initialTime = CommonTime.zero) ∧
    demoLocals.initialTime = CommonTime.zero ∧
    atSecond 103 ≠ CommonTime.zero ∧
    (stationBody (demoCollab noFault) demoConf (demoShared [entryALGO]) (atSecond 103)
      entryALGO demoLocals).result.map
        (fun p => (p.2, p.1.done.contains (.step "ALGO00CAN" .correct .computeTropo),
          p.1.objs.neillTM)) =
      some (.fallThrough, true, some (CommonTime.zero, ⟨4, 2, 3⟩)) := by
  refine ⟨fun c epoTime station staID4 l l1 h =>
    tidesAndTropo_neillTM c epoTime station staID4 l l1 h, fun _ => rfl, rfl, by decide, ?_⟩
  decide

end PPPBox
